import Mathlib

set_option maxHeartbeats 1000000

/-
Verification of the caniusenow data pipeline.

JavaScript semantics are modelled as follows: JS numbers are rationals
(the algorithms under study only add, subtract, divide and floor), JS
strings are Lean strings, JS arrays are lists, `Map`/object records are
association lists in insertion order, and `undefined`/`null` are Option.
-/

-- ===========================================================================
-- Version comparator (src/src/composables/useFeatureUrl.ts, compareVersions)
-- ===========================================================================

/-- Whitespace characters skipped by the JS numeric parsers (the ASCII part
of the JS \s class; version strings in the data are ASCII). -/
def isJsSpace (c : Char) : Bool :=
  c == ' ' || c == '\t' || c == '\n' || c == '\r' || c == '\x0b' || c == '\x0c'

/-- Value of a list of decimal digit characters. -/
def digitsVal (l : List Char) : Nat :=
  l.foldl (fun acc c => acc * 10 + (c.toNat - '0'.toNat)) 0

/-- Helper for parseIntJS: take the maximal run of leading decimal digits;
no digits means NaN (none). -/
def parseIntDigits (s : List Char) (sign : Int) : Option Int :=
  let ds := s.takeWhile Char.isDigit
  if ds.isEmpty then none else some (sign * (digitsVal ds : Int))

/-- JavaScript parseInt(p, 10): skip leading whitespace, optional sign,
then the maximal run of decimal digits; NaN (none) if there are none. -/
def parseIntJS (s : List Char) : Option Int :=
  match s.dropWhile isJsSpace with
  | '+' :: rest => parseIntDigits rest 1
  | '-' :: rest => parseIntDigits rest (-1)
  | rest => parseIntDigits rest 1

/-- JavaScript s.split(/[-.]/) on the character list: split at every '.' or
'-', keeping empty segments (so "".split gives [""]). -/
def splitSeps : List Char → List (List Char)
  | [] => [[]]
  | c :: cs =>
    if c = '.' ∨ c = '-' then [] :: splitSeps cs
    else
      match splitSeps cs with
      | [] => [[c]]
      | p :: ps => (c :: p) :: ps

/-- Numeric parts of a version string: split on '.' and '-', parseInt each
part, NaN coerces to 0.  Mirrors the parts1/parts2 computation in
compareVersions. -/
def toParts (s : String) : List Int :=
  (splitSeps s.data).map (fun p => (parseIntJS p).getD 0)

/-- JS parts[i] || 0: the i-th numeric part, missing (or zero) parts give 0. -/
def padF (l : List Int) : ℕ → Int := fun i => l.getD i 0

/-- Comparison loop of compareVersions over the first n index positions:
p1 = parts1[i] || 0 against p2 = parts2[i] || 0, first strict difference
decides. -/
def fcmp (f g : ℕ → Int) : ℕ → Int
  | 0 => 0
  | n + 1 =>
    if f 0 < g 0 then -1
    else if g 0 < f 0 then 1
    else fcmp (fun i => f (i + 1)) (fun i => g (i + 1)) n

/-- Zero-padded lexicographic comparison of numeric part lists: the
`for (let i = 0; i < maxLength; i++)` loop of compareVersions. -/
def partsCmp (a b : List Int) : Int :=
  fcmp (padF a) (padF b) (max a.length b.length)

/-- compareVersions from useFeatureUrl.ts: equal strings are 0, "TP"
(Technology Preview) is greatest, "all" is least, otherwise numeric
part-by-part comparison with missing parts treated as 0. -/
def compareVersions (v1 v2 : String) : Int :=
  if v1 = v2 then 0
  else if v1 = "TP" then 1
  else if v2 = "TP" then -1
  else if v1 = "all" then -1
  else if v2 = "all" then 1
  else partsCmp (toParts v1) (toParts v2)

-- ===========================================================================
-- Order-theoretic analysis of the comparator
-- ===========================================================================

-- ===========================================================================
-- Feature id / name normalization and duplicate heuristic
-- (src/src/composables/useFeatureUrl.ts, format-utils section)
-- ===========================================================================

/-- JS s.startsWith(p) on the character data. -/
def strStartsWith (s p : String) : Bool := p.data.isPrefixOf s.data

/-- JS s.endsWith(p) on the character data. -/
def strEndsWith (s p : String) : Bool := p.data.isSuffixOf s.data

/-- JS s.split(sep) for a non-empty plain-string separator: split at each
non-overlapping occurrence, left to right, keeping empty segments; fuel
bounds the step count. -/
def jsSplitOnList (sep : List Char) : ℕ → List Char → List (List Char)
  | 0, l => [l]
  | _ + 1, [] => [[]]
  | fuel + 1, c :: cs =>
    if sep.isPrefixOf (c :: cs) then
      [] :: jsSplitOnList sep fuel ((c :: cs).drop sep.length)
    else
      match jsSplitOnList sep fuel cs with
      | [] => [[c]]
      | p :: ps => (c :: p) :: ps

/-- JS s.split(sep) as strings. -/
def jsSplitOn (s sep : String) : List String :=
  (jsSplitOnList sep.data (s.data.length + 1) s.data).map
    (fun l => (⟨l⟩ : String))

/-- Keep only the characters matched by [a-z0-9] (the source lowercases
first, so uppercase letters are gone by then). -/
def keepAlnum (s : String) : String :=
  ⟨s.data.filter (fun c => ('a' ≤ c ∧ c ≤ 'z') ∨ ('0' ≤ c ∧ c ≤ '9'))⟩

/-- JS String.toLowerCase on the ASCII data used here. -/
def jsToLower (s : String) : String := ⟨s.data.map Char.toLower⟩

/-- normalizeFeatureId: lowercase, strip one leading source tag
(css- / wf- / mdn-), drop non-alphanumerics. -/
def normalizeFeatureId (id : String) : String :=
  let low := jsToLower id
  let stripped :=
    if strStartsWith low "css-" then low.drop 4
    else if strStartsWith low "wf-" then low.drop 3
    else if strStartsWith low "mdn-" then low.drop 4
    else low
  keepAlnum stripped

/-- normalizeFeatureName: lowercase, strip a leading "css" word followed by
whitespace, remove backtick characters, drop non-alphanumerics. -/
def normalizeFeatureName (name : String) : String :=
  let low := jsToLower name
  let stripped :=
    match low.data with
    | 'c' :: 's' :: 's' :: rest =>
      if rest.takeWhile isJsSpace ≠ [] then (⟨rest.dropWhile isJsSpace⟩ : String) else low
    | _ => low
  let noTicks : String := ⟨stripped.data.filter (fun c => c ≠ '`')⟩
  keepAlnum noTicks

/-- JS s.includes(t): substring containment. -/
def containsSubstr (s t : String) : Bool := decide (t.data.IsInfix s.data)

/-- areLikelyDuplicates: exact normalized-id match, else exact normalized
name match, else substring containment with length ratio above 0.7. -/
def areLikelyDuplicates (feature1 feature2 : String × String) : Bool :=
  let normId1 := normalizeFeatureId feature1.1
  let normId2 := normalizeFeatureId feature2.1
  if normId1 = normId2 then true
  else
    let normName1 := normalizeFeatureName feature1.2
    let normName2 := normalizeFeatureName feature2.2
    if normName1 = normName2 then true
    else if containsSubstr normName1 normName2 || containsSubstr normName2 normName1 then
      let lenFrac : ℚ :=
        (min normName1.length normName2.length : ℚ) /
          (max normName1.length normName2.length : ℚ)
      decide (lenFrac > 7/10)
    else false

-- ===========================================================================
-- Data model (src/scripts/types.ts)
-- ===========================================================================

/-- Support status tokens of the normalized model. -/
inductive SupportStatus where
  | y | a | n | p | d | x | u
deriving DecidableEq

/-- The ten target browsers. -/
inductive TargetBrowser where
  | chrome | firefox | safari | edge | opera | ie
  | ios_saf | and_chr | samsung | and_ff
deriving DecidableEq

/-- TARGET_BROWSERS constant, in source order. -/
def TARGET_BROWSERS : List TargetBrowser :=
  [.chrome, .firefox, .safari, .edge, .opera, .ie,
   .ios_saf, .and_chr, .samsung, .and_ff]

/-- Desktop/mobile split. -/
inductive BrowserCategory where
  | desktop | mobile
deriving DecidableEq

/-- BROWSER_CATEGORIES constant. -/
def BROWSER_CATEGORIES : TargetBrowser → BrowserCategory
  | .chrome => .desktop
  | .firefox => .desktop
  | .safari => .desktop
  | .edge => .desktop
  | .opera => .desktop
  | .ie => .desktop
  | .ios_saf => .mobile
  | .and_chr => .mobile
  | .samsung => .mobile
  | .and_ff => .mobile

/-- Browser name string as used for object keys and messages. -/
def browserName : TargetBrowser → String
  | .chrome => "chrome"
  | .firefox => "firefox"
  | .safari => "safari"
  | .edge => "edge"
  | .opera => "opera"
  | .ie => "ie"
  | .ios_saf => "ios_saf"
  | .and_chr => "and_chr"
  | .samsung => "samsung"
  | .and_ff => "and_ff"

/-- Single version entry of a support detail (the optional prefix field is
never written by this pipeline and is omitted). -/
structure VersionSupport where
  version : String
  status : SupportStatus
  flags : Option (List String) := none
  notes : Option String := none
deriving DecidableEq

/-- Per-browser support detail. -/
structure BrowserSupportDetail where
  current : SupportStatus
  firstFull : Option String := none
  firstPartial : Option String := none
  versions : List VersionSupport := []
deriving DecidableEq

/-- BrowserSupport record: browser key to detail, absent key is none. -/
abbrev BrowserSupport : Type := TargetBrowser → Option BrowserSupportDetail

/-- Baseline value: "high", "low" or the literal false. -/
inductive BaselineValue where
  | high | low | fls
deriving DecidableEq

/-- Normalized category enum ("CSS", "HTML5", "JS API", "SVG", "Other"). -/
inductive FeatureCategory where
  | css | html5 | jsapi | svg | other
deriving DecidableEq

/-- Provenance tag of a merged record. -/
inductive FeatureSource where
  | caniuse | webfeatures | mdnbcd
deriving DecidableEq

/-- Match kind of a supplementary provenance entry. -/
inductive MatchKind where
  | exact | via_webfeatures | inferred
deriving DecidableEq

/-- External link of a caniuse feature. -/
structure FeatureLink where
  url : String
  title : String
deriving DecidableEq

/-- Global usage percentages (the source's fields full/partial/total;
the JSON key "partial" is the field part here). -/
structure UsageGlobal where
  full : ℚ
  part : ℚ
  total : ℚ
deriving DecidableEq

/-- Per-browser usage breakdown, split desktop/mobile, in insertion order. -/
structure UsageByBrowser where
  desktop : List (TargetBrowser × ℚ) := []
  mobile : List (TargetBrowser × ℚ) := []
deriving DecidableEq

/-- Usage provenance tag. -/
inductive UsageType where
  | actual | estimated
deriving DecidableEq

/-- Usage block of a normalized feature. -/
structure FeatureUsage where
  global : UsageGlobal
  byBrowser : UsageByBrowser
  type : UsageType
deriving DecidableEq

/-- Primary provenance reference. -/
structure SourceRef where
  source : String
  id : String
deriving DecidableEq

/-- Supplementary provenance entry. -/
structure SupplementaryRef where
  source : String
  id : String
  matched : MatchKind
deriving DecidableEq

/-- sourceData block of a normalized feature. -/
structure SourceData where
  primary : SourceRef
  supplementary : List SupplementaryRef
deriving DecidableEq

/-- Feature notes (caniuse only). -/
structure FeatureNotes where
  general : Option String := none
  byNum : Option (List (String × String)) := none
deriving DecidableEq

/-- The unified record produced by the merge pipeline. -/
structure NormalizedFeature where
  id : String
  source : FeatureSource
  name : String
  description : String
  category : FeatureCategory
  mdn : Option String := none
  links : List FeatureLink := []
  support : BrowserSupport
  usage : FeatureUsage
  notes : Option FeatureNotes := none
  flags : Option (List (String × String)) := none
  baseline : BaselineValue
  sourceData : SourceData
  caniuseUrl : String

/-- Empty browser-support record. -/
def emptySupport : BrowserSupport := fun _ => none

/-- Record update at one browser key. -/
def supportSet (m : BrowserSupport) (b : TargetBrowser)
    (d : BrowserSupportDetail) : BrowserSupport :=
  fun x => if x = b then some d else m x

/-- The merged-feature Map: insertion-ordered association list over feature
ids, as iterated by `for (const [id, feature] of features)`. -/
abbrev FeatMap : Type := List (String × NormalizedFeature)

/-- Map.get. -/
def FeatMap.get (m : FeatMap) (k : String) : Option NormalizedFeature :=
  (m.find? (fun e => e.1 == k)).map (fun e => e.2)

/-- Map.set: replace in place if the key exists, else append. -/
def FeatMap.set (m : FeatMap) (k : String) (v : NormalizedFeature) : FeatMap :=
  if m.any (fun e => e.1 == k) then
    m.map (fun e => if e.1 == k then (k, v) else e)
  else m ++ [(k, v)]

-- ===========================================================================
-- Per-source extractors (useFeatureUrl.ts, helpers section)
-- ===========================================================================

/-- Truthiness of an optional JS string: undefined and "" are falsy. -/
def strTruthy (o : Option String) : Option String :=
  match o with
  | some s => if s = "" then none else some s
  | none => none

/-- parseCanisueSupport (sic): strip the modifier characters # x d p, trim,
and classify the base status. -/
def parseCanisueSupport (support : String) : SupportStatus :=
  let base : String :=
    ⟨((support.data.filter (fun c =>
        c ≠ '#' ∧ c ≠ 'x' ∧ c ≠ 'd' ∧ c ≠ 'p')).dropWhile isJsSpace).reverse.dropWhile isJsSpace |>.reverse⟩
  if base = "y" then .y
  else if base = "a" then .a
  else if base = "n" then .n
  else if base = "p" then .p
  else if base = "u" then .u
  else .u

/-- extractSupportFlags: decode modifier characters into flag names. -/
def extractSupportFlags (support : String) : List String :=
  (if support.data.contains 'x' then ["prefix"] else []) ++
  (if support.data.contains 'd' then ["disabled"] else []) ++
  (if support.data.contains 'p' then ["polyfill"] else []) ++
  (if support.data.contains '#' then ["footnote"] else [])

/-- Loop state of extractCaniuseBrowserSupport. -/
structure CaniuseExtractState where
  versions : List VersionSupport := []
  firstFull : Option String := none
  firstPartial : Option String := none
  currentVersion : String := ""
  currentStatus : SupportStatus := .n

/-- Loop body of extractCaniuseBrowserSupport over one (version, support)
entry. -/
def caniuseExtractStep (st : CaniuseExtractState) (entry : String × String) :
    CaniuseExtractState :=
  let version := entry.1
  let status := parseCanisueSupport entry.2
  let flags := extractSupportFlags entry.2
  let entryVS : VersionSupport :=
    { version := version, status := status,
      flags := if flags.length > 0 then some flags else none }
  let st1 := { st with versions := st.versions ++ [entryVS] }
  let st2 := if status = .y ∧ strTruthy st1.firstFull = none then
      { st1 with firstFull := some version } else st1
  let st3 := if status = .a ∧ strTruthy st2.firstPartial = none then
      { st2 with firstPartial := some version } else st2
  { st3 with currentVersion := version, currentStatus := status }

/-- extractCaniuseBrowserSupport: iterate a browser's version table in
comparator order (stable sort), classify each entry, track first full and
first partial support, keep the last 10 versions. -/
def extractCaniuseBrowserSupport
    (stats : TargetBrowser → Option (List (String × String)))
    (browser : TargetBrowser) : BrowserSupportDetail :=
  match stats browser with
  | none => { current := .u, versions := [] }
  | some browserStats =>
    let sortedVersions :=
      browserStats.mergeSort (fun a b => compareVersions a.1 b.1 ≤ 0)
    let final := sortedVersions.foldl caniuseExtractStep ({} : CaniuseExtractState)
    { current := final.currentStatus,
      firstFull := final.firstFull,
      firstPartial := final.firstPartial,
      versions := final.versions.drop (final.versions.length - 10) }

/-- extractWebFeaturesBrowserSupport: a single "available since" version
becomes a one-element history with current full support; a missing or
empty (falsy) version gives null. -/
def extractWebFeaturesBrowserSupport
    (wfSupport : TargetBrowser → Option String)
    (browser : TargetBrowser) : Option BrowserSupportDetail :=
  match strTruthy (wfSupport browser) with
  | none => none
  | some version =>
    some { current := .y, firstFull := some version,
           versions := [{ version := version, status := .y }] }

/-- version_added of an MDN support statement: true, false, null, or a
concrete version (numeric values are modelled by their decimal string,
matching the String(versionAdded) conversion). -/
inductive MdnVersionAdded where
  | tru | fls | nul
  | ver (v : String)
deriving DecidableEq

/-- Developer flag of an MDN support statement. -/
structure MdnFlag where
  type : String
  name : String
  value_to_set : Option String := none
deriving DecidableEq

/-- MDN BCD support statement. -/
structure MdnSupportStatement where
  version_added : MdnVersionAdded
  version_removed : Option MdnVersionAdded := none
  flags : Option (List MdnFlag) := none
  partial_implementation : Option Bool := none
  notes : Option (Sum String (List String)) := none
deriving DecidableEq

/-- A support value in MDN BCD: one statement or an array of statements. -/
abbrev MdnSupport := Sum MdnSupportStatement (List MdnSupportStatement)

/-- Loop state of extractMdnBrowserSupport. -/
structure MdnExtractState where
  firstFull : Option String := none
  firstPartial : Option String := none
  currentStatus : SupportStatus := .n
  versions : List VersionSupport := []

/-- Loop body of extractMdnBrowserSupport over one statement. -/
def mdnExtractStep (st : MdnExtractState) (statement : MdnSupportStatement) :
    MdnExtractState :=
  match statement.version_added with
  | .tru => { st with currentStatus := .y }
  | .fls => st
  | .nul => st
  | .ver version =>
    let hasFlags : Bool :=
      match statement.flags with
      | some fl => fl.length > 0
      | none => false
    let isPartial : Bool := statement.partial_implementation = some true
    let status : SupportStatus := if hasFlags then .d else if isPartial then .a else .y
    let notesStr : Option String :=
      match statement.notes with
      | none => none
      | some (.inl s) => if s = "" then none else some s
      | some (.inr l) => some (String.intercalate " " l)
    let entryVS : VersionSupport :=
      { version := version, status := status,
        flags := if hasFlags then some ["flags"] else none,
        notes := notesStr }
    let st1 := { st with versions := st.versions ++ [entryVS] }
    let st2 :=
      if status = .y ∧ strTruthy st1.firstFull = none then
        { st1 with firstFull := some version, currentStatus := .y }
      else st1
    if status = .a ∧ strTruthy st2.firstPartial = none then
      let newStatus := if st2.currentStatus = .n then SupportStatus.a else st2.currentStatus
      { st2 with firstPartial := some version, currentStatus := newStatus }
    else st2

/-- extractMdnBrowserSupport: fold the statements; null when no statement
produced a version entry. -/
def extractMdnBrowserSupport (mdnSupport : MdnSupport)
    (_browser : TargetBrowser) : Option BrowserSupportDetail :=
  let statements :=
    match mdnSupport with
    | .inl s => [s]
    | .inr l => l
  let final := statements.foldl mdnExtractStep ({} : MdnExtractState)
  if final.versions.length = 0 then none
  else
    some { current := final.currentStatus,
           firstFull := final.firstFull,
           firstPartial := final.firstPartial,
           versions := final.versions.drop (final.versions.length - 10) }

/-- Parent-browser inference table of inferBrowserSupport. -/
def inferenceMap : TargetBrowser → Option TargetBrowser
  | .ios_saf => some .safari
  | .and_chr => some .chrome
  | .samsung => some .chrome
  | .and_ff => some .firefox
  | .opera => some .chrome
  | .ie => some .edge
  | _ => none

/-- inferBrowserSupport: copy the support of the mapped parent browser when
the parent has native data, otherwise mark fully unsupported. -/
def inferBrowserSupport (browser : TargetBrowser)
    (browsersWithData : List TargetBrowser)
    (support : BrowserSupport) : BrowserSupportDetail :=
  match inferenceMap browser with
  | some relatedBrowser =>
    if browsersWithData.contains relatedBrowser then
      match support relatedBrowser with
      | some d => d
      | none => { current := .n, versions := [] }
    else { current := .n, versions := [] }
  | none => { current := .n, versions := [] }

-- ===========================================================================
-- Usage calculation (useFeatureUrl.ts, calculateActualUsage / estimateUsage)
-- ===========================================================================

/-- Math.round: round half towards positive infinity. -/
def jsRound (q : ℚ) : ℤ := ⌊q + 1/2⌋

/-- Math.round(x * 100) / 100: round to 2 decimal places. -/
def round2 (q : ℚ) : ℚ := (jsRound (q * 100) : ℚ) / 100

/-- Exponent part of parseFloat: optional sign then digits; a missing digit
run means the exponent is ignored (contributes 0). -/
def jsParseExponent (l : List Char) : ℤ :=
  let (esign, l1) : ℤ × List Char :=
    match l with
    | '+' :: rest => (1, rest)
    | '-' :: rest => (-1, rest)
    | rest => (1, rest)
  let ds := l1.takeWhile Char.isDigit
  if ds.isEmpty then 0 else esign * (digitsVal ds : Int)

/-- JavaScript parseFloat: optional sign, integer digits, optional fraction
digits, optional exponent; NaN (none) when no digits at all.  Trailing
garbage is ignored, a malformed exponent is ignored. -/
def jsParseFloat (s : String) : Option ℚ :=
  let l := s.data.dropWhile isJsSpace
  let (sign, l1) : ℚ × List Char :=
    match l with
    | '+' :: rest => (1, rest)
    | '-' :: rest => (-1, rest)
    | rest => (1, rest)
  let intDigits := l1.takeWhile Char.isDigit
  let l2 := l1.drop intDigits.length
  let (fracDigits, l3) : List Char × List Char :=
    match l2 with
    | '.' :: rest => (rest.takeWhile Char.isDigit, rest.drop (rest.takeWhile Char.isDigit).length)
    | _ => ([], l2)
  if intDigits.isEmpty ∧ fracDigits.isEmpty then none
  else
    let mantissa : ℚ :=
      (digitsVal intDigits : ℚ) + (digitsVal fracDigits : ℚ) / ((10 : ℚ) ^ fracDigits.length)
    let expVal : ℤ :=
      match l3 with
      | 'e' :: rest => jsParseExponent rest
      | 'E' :: rest => jsParseExponent rest
      | _ => 0
    some (sign * mantissa * (10 : ℚ) ^ expVal)

/-- Proportional interpolation fraction used by estimateUsage for a version
range [startNum, endNum] crossed at supportNum:
Math.max(0, Math.min(1, (endNum - supportNum) / (endNum - startNum))). -/
def rangeProportion (startNum endNum supportNum : ℚ) : ℚ :=
  max 0 (min 1 ((endNum - supportNum) / (endNum - startNum)))

/-- Pre-calculated usage percentages handed to estimateUsage (the source's
{full, partial} pair; partial is the field part). -/
structure PreCalculated where
  full : ℚ
  part : ℚ
deriving DecidableEq

/-- Result shape of estimateUsage / calculateActualUsage. -/
structure EstimateResult where
  global : UsageGlobal
  byBrowser : UsageByBrowser
deriving DecidableEq

/-- Per-browser per-version usage share table (the data field of
alt-ww.json; the code unwraps the .data property when present). -/
abbrev AltWw := TargetBrowser → Option (List (String × ℚ))

/-- Range-entry contribution of estimateUsage: given the first-support
version, the range bounds and the entry's usage, the amount added to the
bucket. -/
def rangeContribution (firstVersion rangeStart rangeEnd : String)
    (usage : ℚ) : ℚ :=
  if compareVersions firstVersion rangeStart ≤ 0 then usage
  else if compareVersions firstVersion rangeEnd > 0 then 0
  else
    match jsParseFloat rangeStart, jsParseFloat rangeEnd,
        jsParseFloat firstVersion with
    | some startNum, some endNum, some supportNum =>
      if endNum - startNum > 0 then
        usage * rangeProportion startNum endNum supportNum
      else 0
    | _, _, _ => 0

/-- Version-entry loop body of estimateUsage: fold one (versionStr, usage)
entry of a browser's usage table into the (full, partial) accumulators. -/
def estimateEntryStep (bs : BrowserSupportDetail) (acc : ℚ × ℚ)
    (entry : String × ℚ) : ℚ × ℚ :=
  let versionStr := entry.1
  let usage := entry.2
  if versionStr = "TP" ∨ versionStr = "all" then acc
  else if versionStr = "0" then
    if bs.current = .y then (acc.1 + usage, acc.2)
    else if bs.current = .a then (acc.1, acc.2 + usage)
    else acc
  else if versionStr.data.contains '-' then
    let pieces := jsSplitOn versionStr "-"
    let rangeStart := pieces.headD ""
    let rangeEnd := (pieces.drop 1).headD ""
    match strTruthy bs.firstFull with
    | some ffv => (acc.1 + rangeContribution ffv rangeStart rangeEnd usage, acc.2)
    | none =>
      match strTruthy bs.firstPartial with
      | some fpv => (acc.1, acc.2 + rangeContribution fpv rangeStart rangeEnd usage)
      | none => acc
  else
    match strTruthy bs.firstFull with
    | some ffv =>
      if compareVersions versionStr ffv ≥ 0 then (acc.1 + usage, acc.2)
      else
        match strTruthy bs.firstPartial with
        | some fpv =>
          if compareVersions versionStr fpv ≥ 0 then (acc.1, acc.2 + usage)
          else acc
        | none => acc
    | none =>
      match strTruthy bs.firstPartial with
      | some fpv =>
        if compareVersions versionStr fpv ≥ 0 then (acc.1, acc.2 + usage)
        else acc
      | none => acc

/-- Accumulator of the browser loop of estimateUsage. -/
structure EstimateAcc where
  fullUsage : ℚ := 0
  partialUsage : ℚ := 0
  byBrowser : UsageByBrowser := {}

/-- Browser loop body of estimateUsage. -/
def estimateBrowserStep (support : BrowserSupport) (usageData : AltWw)
    (acc : EstimateAcc) (browser : TargetBrowser) : EstimateAcc :=
  match support browser, usageData browser with
  | some bs, some browserUsage =>
    if bs.current = .n ∧ strTruthy bs.firstFull = none ∧
        strTruthy bs.firstPartial = none then acc
    else
      let bu := browserUsage.foldl (estimateEntryStep bs) (0, 0)
      let totalBrowserUsage := bu.1 + bu.2
      let byBrowser1 :=
        if totalBrowserUsage > 0 then
          match BROWSER_CATEGORIES browser with
          | .desktop => { acc.byBrowser with
              desktop := acc.byBrowser.desktop ++ [(browser, round2 totalBrowserUsage)] }
          | .mobile => { acc.byBrowser with
              mobile := acc.byBrowser.mobile ++ [(browser, round2 totalBrowserUsage)] }
        else acc.byBrowser
      { fullUsage := acc.fullUsage + bu.1,
        partialUsage := acc.partialUsage + bu.2,
        byBrowser := byBrowser1 }
  | _, _ => acc

/-- Rounded global block shared by every return path of estimateUsage and
calculateActualUsage: full and partial rounded to 2 decimals, total the
rounded sum. -/
def mkRoundedGlobal (full part : ℚ) : UsageGlobal :=
  { full := round2 full, part := round2 part, total := round2 (full + part) }

/-- estimateUsage: walk every browser's usage table, bucket full/partial
contributions, round everything to 2 decimals; pre-calculated caniuse
percentages override the computed global figures when non-zero. -/
def estimateUsage (support : BrowserSupport) (usageData : AltWw)
    (preCalculated : Option PreCalculated) : EstimateResult :=
  let usePreCalculated : Bool :=
    match preCalculated with
    | some p => p.full > 0 ∨ p.part > 0
    | none => false
  let acc := TARGET_BROWSERS.foldl (estimateBrowserStep support usageData) ({} : EstimateAcc)
  let gp : ℚ × ℚ :=
    match usePreCalculated, preCalculated with
    | true, some p => (p.full, p.part)
    | _, _ => (acc.fullUsage, acc.partialUsage)
  { global := mkRoundedGlobal gp.1 gp.2, byBrowser := acc.byBrowser }

/-- Caniuse feature record (source schema). -/
structure CaniuseFeature where
  title : String
  description : String
  status : String := ""
  links : List FeatureLink := []
  categories : List String := []
  stats : TargetBrowser → Option (List (String × String))
  notes : Option String := none
  notes_by_num : Option (List (String × String)) := none
  usage_perc_y : Option ℚ := none
  usage_perc_a : Option ℚ := none

/-- calculateActualUsage: caniuse pre-calculated global percentages, with a
per-browser breakdown computed by estimateUsage when support and usage
data are supplied. -/
def calculateActualUsage (feature : CaniuseFeature)
    (support : Option BrowserSupport) (usageData : Option AltWw) :
    EstimateResult :=
  let full := feature.usage_perc_y.getD 0
  let part := feature.usage_perc_a.getD 0
  let byBrowser :=
    match support, usageData with
    | some s, some u =>
      (estimateUsage s u (some { full := full, part := part })).byBrowser
    | _, _ => ({} : UsageByBrowser)
  { global := mkRoundedGlobal full part, byBrowser := byBrowser }

-- ===========================================================================
-- Text formatting utilities (useFeatureUrl.ts, format-utils section)
-- ===========================================================================

/-- Scanner of normalizeCodeTags: replace every <code>([^<]+)</code> match
by the content wrapped in backticks; fuel bounds the step count. -/
def codeTagScan : ℕ → List Char → List Char
  | 0, l => l
  | _ + 1, [] => []
  | fuel + 1, '<' :: 'c' :: 'o' :: 'd' :: 'e' :: '>' :: rest =>
    let content := rest.takeWhile (fun c => c ≠ '<')
    let after := rest.drop content.length
    if content ≠ [] ∧ ['<', '/', 'c', 'o', 'd', 'e', '>'].isPrefixOf after then
      '\x60' :: content ++ '\x60' :: codeTagScan fuel (after.drop 7)
    else '<' :: codeTagScan fuel ('c' :: 'o' :: 'd' :: 'e' :: '>' :: rest)
  | fuel + 1, c :: cs => c :: codeTagScan fuel cs

/-- normalizeCodeTags: convert HTML <code> tags to backticks. -/
def normalizeCodeTags (text : String) : String :=
  if text = "" then text
  else ⟨codeTagScan text.data.length text.data⟩

/-- formatSnakeCase: keep kebab-case names, otherwise replace underscores
by spaces and uppercase the first character. -/
def formatSnakeCase (name : String) : String :=
  if name.data.contains '-' ∧ ¬ name.data.contains '_' then name
  else
    match name.data.map (fun c => if c = '_' then ' ' else c) with
    | [] => ""
    | c :: cs => ⟨c.toUpper :: cs⟩

/-- Find the first occurrence of pat in l; on success return the part
before it and the part after it. -/
def findSplit : List Char → List Char → Option (List Char × List Char)
  | l, pat =>
    if pat.isPrefixOf l then some ([], l.drop pat.length)
    else
      match l with
      | [] => none
      | c :: cs =>
        match findSplit cs pat with
        | some (pre, post) => some (c :: pre, post)
        | none => none

/-- JS String.replace with a plain-string pattern: replace the first
occurrence only; no occurrence returns the string unchanged. -/
def jsReplaceFirst (s sub repl : String) : String :=
  match findSplit s.data sub.data with
  | some (pre, post) => ⟨pre ++ repl.data ++ post⟩
  | none => s

/-- Last element of a path-part list (parts[parts.length - 1]). -/
def lastPart (parts : List String) : String := parts.getLastD ""

/-- inferApiName branch of inferNameFromMdnPath. -/
def inferApiName (parts : List String) : String :=
  if parts.length = 2 then parts.getD 1 ""
  else if parts.length = 3 then
    let interfaceName := parts.getD 1 ""
    let memberName := parts.getD 2 ""
    if interfaceName = memberName then interfaceName ++ "() constructor"
    else if strEndsWith memberName "_event" then
      interfaceName ++ ": " ++ jsReplaceFirst memberName "_event" "" ++ " event"
    else if strEndsWith memberName "_static" then
      interfaceName ++ "." ++ jsReplaceFirst memberName "_static" "" ++ "() static method"
    else interfaceName ++ "." ++ memberName
  else if parts.length ≥ 4 then
    parts.getD 1 "" ++ "." ++ parts.getD 2 "" ++ ": " ++ formatSnakeCase (lastPart parts)
  else lastPart parts

/-- Function names recognised by the css.types branch. -/
def cssTypeFunctions : List String :=
  ["rgb", "hsl", "hwb", "lab", "lch", "oklch", "oklab",
   "calc", "var", "min", "max", "clamp", "url", "attr",
   "counter", "counters", "linear-gradient", "radial-gradient"]

/-- inferCssName branch of inferNameFromMdnPath. -/
def inferCssName (parts : List String) : String :=
  let subCategory := parts.getD 1 ""
  if subCategory = "properties" ∧ parts.length = 3 then parts.getD 2 ""
  else if subCategory = "properties" ∧ parts.length = 4 then
    parts.getD 2 "" ++ ": " ++ formatSnakeCase (parts.getD 3 "")
  else if subCategory = "properties" ∧ parts.length ≥ 5 then
    parts.getD 2 "" ++ ": " ++ formatSnakeCase (lastPart parts)
  else if subCategory = "selectors" then
    if parts.length ≥ 3 then parts.getD 2 "" else lastPart parts
  else if subCategory = "at-rules" then
    let ruleName := parts.getD 2 "undefined"
    if parts.length = 3 then "@" ++ ruleName
    else "@" ++ ruleName ++ ": " ++ formatSnakeCase (lastPart parts)
  else if subCategory = "types" ∧ parts.length ≥ 3 then
    let typeName := lastPart parts
    if cssTypeFunctions.contains typeName then typeName ++ "()"
    else formatSnakeCase typeName
  else formatSnakeCase (lastPart parts)

/-- inferHtmlName branch of inferNameFromMdnPath. -/
def inferHtmlName (parts : List String) : String :=
  let subCategory := parts.getD 1 ""
  if subCategory = "elements" ∧ parts.length ≥ 3 then
    "<" ++ parts.getD 2 "" ++ ">"
  else if subCategory = "global_attributes" ∧ parts.length ≥ 3 then
    parts.getD 2 ""
  else formatSnakeCase (lastPart parts)

/-- inferJavaScriptName branch of inferNameFromMdnPath. -/
def inferJavaScriptName (parts : List String) : String :=
  let subCategory := parts.getD 1 ""
  if subCategory = "builtins" ∧ parts.length ≥ 4 then
    parts.getD 2 "" ++ "." ++ parts.getD 3 "" ++ "()"
  else if subCategory = "statements" ∧ parts.length ≥ 3 then
    parts.getD 2 "" ++ " statement"
  else if subCategory = "operators" ∧ parts.length ≥ 3 then
    formatSnakeCase (parts.getD 2 "") ++ " operator"
  else formatSnakeCase (lastPart parts)

/-- inferSvgName branch of inferNameFromMdnPath. -/
def inferSvgName (parts : List String) : String :=
  let subCategory := parts.getD 1 ""
  if subCategory = "elements" ∧ parts.length ≥ 3 then
    "<" ++ parts.getD 2 "" ++ "> (SVG)"
  else if subCategory = "attributes" ∧ parts.length ≥ 3 then
    parts.getD 2 ""
  else formatSnakeCase (lastPart parts)

/-- inferGenericName branch of inferNameFromMdnPath. -/
def inferGenericName (parts : List String) : String :=
  formatSnakeCase (lastPart parts)

/-- inferNameFromMdnPath (format-utils version): human-readable feature
name from an MDN BCD path. -/
def inferNameFromMdnPath (path : String) : String :=
  let parts := jsSplitOn path "."
  let category := parts.getD 0 ""
  if category = "api" then inferApiName parts
  else if category = "css" then inferCssName parts
  else if category = "html" then inferHtmlName parts
  else if category = "javascript" then inferJavaScriptName parts
  else if category = "svg" then inferSvgName parts
  else inferGenericName parts

-- ===========================================================================
-- formatFeatureName and its pattern helpers
-- ===========================================================================

/-- ASCII uppercase letter ([A-Z]). -/
def isUpperAZ (c : Char) : Bool := 'A' ≤ c ∧ c ≤ 'Z'

/-- ASCII lowercase letter ([a-z]). -/
def isLowerAZ (c : Char) : Bool := 'a' ≤ c ∧ c ≤ 'z'

/-- ASCII letter ([a-zA-Z]). -/
def isAlphaAZ (c : Char) : Bool := isUpperAZ c || isLowerAZ c

/-- Word character of the \w class ([A-Za-z0-9_]). -/
def isWordChar (c : Char) : Bool := isAlphaAZ c || c.isDigit || c = '_'

/-- First character of a \b[A-Za-z_] name. -/
def isWordStart (c : Char) : Bool := isAlphaAZ c || c = '_'

/-- Separator of the fullMethodPattern groups ([\s.]). -/
def isSepChar (c : Char) : Bool := isJsSpace c || c = '.'

/-- Wrap the entire string with backticks (wrapWithBackticks). -/
def wrapWithBackticks (text : String) : String :=
  ⟨'\x60' :: text.data ++ ['\x60']⟩

/-- Body check of fullMethodPattern between the initial letter and the
final (): letters and single [\s.] separators, every separator followed
by at least one letter (matches ([a-zA-Z]*(?:[\s.][a-zA-Z]+)*)). -/
def methodBodyOk : List Char → Bool
  | [] => true
  | c :: cs =>
    if isAlphaAZ c then methodBodyOk cs
    else if isSepChar c then
      match cs with
      | c2 :: _ => isAlphaAZ c2 && methodBodyOk cs
      | [] => false
    else false

/-- Split a char list into [a, b] with b the suffix of length 2; none if
shorter. -/
def splitLast2 (l : List Char) : List Char × List Char :=
  (l.take (l.length - 2), l.drop (l.length - 2))

/-- fullMethodPattern:
^([A-Z][a-zA-Z]*(?:[\s.][a-zA-Z]+)*\(\))$ or ^([a-z][a-zA-Z]*\(\))$. -/
def matchFullMethod (l : List Char) : Bool :=
  match l with
  | c :: rest =>
    let mid := (splitLast2 rest).1
    let suf := (splitLast2 rest).2
    suf = ['(', ')'] &&
      ((isUpperAZ c && methodBodyOk mid) || (isLowerAZ c && mid.all isAlphaAZ))
  | [] => false

/-- prefixSpaceMethodPattern: ^([A-Z][a-zA-Z]*)\s+([a-zA-Z]+\(\))$. -/
def matchPrefixSpaceMethod (l : List Char) : Bool :=
  match l with
  | c :: rest =>
    if isUpperAZ c then
      let letters1 := rest.takeWhile isAlphaAZ
      let r1 := rest.drop letters1.length
      let spaces := r1.takeWhile isJsSpace
      let r2 := r1.drop spaces.length
      let letters2 := r2.takeWhile isAlphaAZ
      let r3 := r2.drop letters2.length
      spaces.length > 0 && letters2.length > 0 && r3 = ['(', ')']
    else false
  | [] => false

/-- Split a char list at every occurrence of the given character, keeping
empty segments. -/
def splitOnChar (sep : Char) : List Char → List (List Char)
  | [] => [[]]
  | c :: cs =>
    if c = sep then [] :: splitOnChar sep cs
    else
      match splitOnChar sep cs with
      | [] => [[c]]
      | p :: ps => (c :: p) :: ps

/-- prefixDotMethodPattern:
^([A-Z][a-zA-Z]*(?:\.[A-Z]?[a-zA-Z]*)*\.[a-zA-Z]+\(\))$. -/
def matchPrefixDotMethod (l : List Char) : Bool :=
  match l with
  | c :: rest =>
    if isUpperAZ c then
      let mid := (splitLast2 rest).1
      let suf := (splitLast2 rest).2
      let segs := splitOnChar '.' mid
      suf = ['(', ')'] && segs.length ≥ 2 &&
        segs.all (fun s => s.all isAlphaAZ) &&
        (segs.getLastD []).length > 0
    else false
  | [] => false

/-- Backtracking tail matcher of the fallback method regex: after an
initial name, match (?:\.[A-Za-z_][\w]*)* then \(\), preferring more
groups.  Returns (matched, rest) on success. -/
def matchCallTail : ℕ → List Char → List Char → Option (List Char × List Char)
  | 0, _, _ => none
  | fuel + 1, acc, l =>
    let withGroup : Option (List Char × List Char) :=
      match l with
      | '.' :: c :: rest =>
        if isWordStart c then
          let run := rest.takeWhile isWordChar
          matchCallTail fuel (acc ++ '.' :: c :: run) (rest.drop run.length)
        else none
      | _ => none
    match withGroup with
    | some r => some r
    | none =>
      match l with
      | '(' :: ')' :: rest => some (acc ++ ['(', ')'], rest)
      | _ => none

/-- Try the fallback method pattern \b[A-Za-z_][\w]*(?:\.[A-Za-z_][\w]*)*\(\)
at the current position (word boundary already checked by the caller). -/
def tryMatchCall (l : List Char) : Option (List Char × List Char) :=
  match l with
  | c :: rest =>
    if isWordStart c then
      let run := rest.takeWhile isWordChar
      matchCallTail (l.length + 1) (c :: run) (rest.drop run.length)
    else none
  | [] => none

/-- Global-replace scanner of the fallback branch of
formatSingleMethodExpression: wrap every standalone method() occurrence
in backticks. -/
def methodReplaceScan : ℕ → Bool → List Char → List Char
  | 0, _, l => l
  | _ + 1, _, [] => []
  | fuel + 1, prevIsWord, c :: cs =>
    if ¬ prevIsWord ∧ isWordStart c then
      match tryMatchCall (c :: cs) with
      | some (matched, rest) =>
        '\x60' :: matched ++ '\x60' :: methodReplaceScan fuel false rest
      | none => c :: methodReplaceScan fuel (isWordChar c) cs
    else c :: methodReplaceScan fuel (isWordChar c) cs

/-- formatSingleMethodExpression: wrap a single method expression with
backticks when one of the three anchored patterns matches, otherwise
wrap every standalone method() substring. -/
def formatSingleMethodExpression (expr : String) : String :=
  if ¬ containsSubstr expr "()" then expr
  else if matchFullMethod expr.data then wrapWithBackticks expr
  else if matchPrefixSpaceMethod expr.data then wrapWithBackticks expr
  else if matchPrefixDotMethod expr.data then wrapWithBackticks expr
  else ⟨methodReplaceScan expr.data.length false expr.data⟩

/-- JS String.trim. -/
def jsTrim (s : String) : String :=
  ⟨(s.data.dropWhile isJsSpace).reverse.dropWhile isJsSpace |>.reverse⟩

/-- formatMethodNames: split compound "x and y" expressions and format
each part. -/
def formatMethodNames (name : String) : String :=
  if containsSubstr name " and " then
    String.intercalate " and "
      ((jsSplitOn name " and ").map (fun part =>
        formatSingleMethodExpression (jsTrim part)))
  else formatSingleMethodExpression name

/-- isCssPropertyName: lowercase, no spaces, hyphenated; always accepted
for the CSS category, otherwise must look like ^[a-z]+(-[a-z]+)+$. -/
def isCssPropertyName (name : String) (category : Option String) : Bool :=
  if name ≠ jsToLower name then false
  else if name.data.contains ' ' then false
  else if ¬ name.data.contains '-' then false
  else if category = some "CSS" then true
  else
    let segs := splitOnChar '-' name.data
    segs.length ≥ 2 && segs.all (fun s => s ≠ [] && s.all isLowerAZ)

/-- HTML global attributes recognised by isSingleWordProperty. -/
def htmlAttributes : List String :=
  ["accesskey", "autocapitalize", "autofocus", "contenteditable", "dir",
   "draggable", "enterkeyhint", "hidden", "inert", "inputmode", "lang",
   "popover", "spellcheck", "tabindex", "title", "translate"]

/-- CSS keywords recognised by isSingleWordProperty. -/
def cssKeywords : List String :=
  ["all", "appearance", "azimuth", "backface", "baseline", "bottom",
   "caption", "clear", "clip", "color", "content", "cursor", "direction",
   "display", "elevation", "filter", "flex", "float", "font", "gap",
   "grid", "height", "hyphens", "icon", "isolation", "left", "margin",
   "mask", "offset", "opacity", "order", "orphans", "outline", "overflow",
   "padding", "perspective", "position", "quotes", "resize", "right",
   "rotate", "scale", "top", "transform", "transition", "translate",
   "visibility", "widows", "width", "zoom"]

/-- isSingleWordProperty: single lowercase word that is a known property
or attribute (or anything single-word lowercase in the CSS category). -/
def isSingleWordProperty (name : String) (category : Option String) : Bool :=
  if name.data.contains ' ' || name.data.contains '-' then false
  else if name ≠ jsToLower name then false
  else if category = some "CSS" then true
  else if htmlAttributes.contains name then true
  else cssKeywords.contains name

/-- Attribute pattern ^\w+="[^"]*"$ of formatFeatureName. -/
def matchAttrPattern (l : List Char) : Bool :=
  let w := l.takeWhile isWordChar
  let r1 := l.drop w.length
  match w, r1 with
  | [], _ => false
  | _, '=' :: '"' :: rest =>
    let body := rest.takeWhile (fun c => c ≠ '"')
    rest.drop body.length = ['"']
  | _, _ => false

/-- formatFeatureName: wrap code-like feature names in backticks following
the six source patterns. -/
def formatFeatureName (name : String) (category : Option String) : String :=
  if name = "" then name
  else
    let normalized := normalizeCodeTags name
    if normalized ≠ name then normalized
    else if name.data.contains '\x60' then name
    else if strStartsWith name "<" ∧ name.data.contains '>' then
      wrapWithBackticks name
    else if strStartsWith name "@" then wrapWithBackticks name
    else if matchAttrPattern name.data then wrapWithBackticks name
    else if containsSubstr name "()" then formatMethodNames name
    else if isCssPropertyName name category then wrapWithBackticks name
    else if isSingleWordProperty name category then wrapWithBackticks name
    else name

-- ===========================================================================
-- Category mapping and URL encoding
-- ===========================================================================

/-- mapCaniuseCategory: first category keyword decides the normalized
category. -/
def mapCaniuseCategory (categories : List String) : FeatureCategory :=
  match categories with
  | [] => .other
  | firstCategory :: _ =>
    let f := jsToLower firstCategory
    if containsSubstr f "css" then .css
    else if containsSubstr f "html" then .html5
    else if containsSubstr f "js" || containsSubstr f "javascript" ||
        containsSubstr f "api" then .jsapi
    else if containsSubstr f "svg" then .svg
    else .other

/-- inferCategoryFromMdnPath: top-level path segment decides the category. -/
def inferCategoryFromMdnPath (path : String) : FeatureCategory :=
  let topLevel := jsToLower ((jsSplitOn path ".").getD 0 "")
  if topLevel = "css" then .css
  else if topLevel = "html" then .html5
  else if topLevel = "api" ∨ topLevel = "javascript" then .jsapi
  else if topLevel = "svg" then .svg
  else .other

/-- Display string of a normalized category. -/
def categoryName : FeatureCategory → String
  | .css => "CSS"
  | .html5 => "HTML5"
  | .jsapi => "JS API"
  | .svg => "SVG"
  | .other => "Other"

/-- Hexadecimal digit characters used by percent encoding. -/
def hexDigit (n : ℕ) : Char :=
  (['0', '1', '2', '3', '4', '5', '6', '7', '8', '9',
    'A', 'B', 'C', 'D', 'E', 'F']).getD n '0'

/-- UTF-8 bytes of a character. -/
def utf8Bytes (c : Char) : List ℕ :=
  let n := c.toNat
  if n < 0x80 then [n]
  else if n < 0x800 then [0xC0 + n / 0x40, 0x80 + n % 0x40]
  else if n < 0x10000 then
    [0xE0 + n / 0x1000, 0x80 + (n / 0x40) % 0x40, 0x80 + n % 0x40]
  else
    [0xF0 + n / 0x40000, 0x80 + (n / 0x1000) % 0x40,
     0x80 + (n / 0x40) % 0x40, 0x80 + n % 0x40]

/-- Characters encodeURIComponent leaves unescaped. -/
def isUriUnreserved (c : Char) : Bool :=
  isAlphaAZ c || c.isDigit ||
    (['-', '_', '.', '!', '~', '*', '\x27', '(', ')']).contains c

/-- encodeURIComponent: percent-encode everything but the unreserved set. -/
def encodeURIComponent (s : String) : String :=
  ⟨s.data.foldr (fun c acc =>
    if isUriUnreserved c then c :: acc
    else (utf8Bytes c).foldr
      (fun b acc2 => '%' :: hexDigit (b / 16) :: hexDigit (b % 16) :: acc2)
      acc) []⟩

-- ===========================================================================
-- Source records of the secondary and tertiary sources
-- ===========================================================================

/-- status block of a Web Features record. -/
structure WfStatus where
  baseline : Option BaselineValue := none
  baseline_low_date : Option String := none
  baseline_high_date : Option String := none
  support : TargetBrowser → Option String

/-- Web Features record (source schema; caniuse is a single id or a list). -/
structure WebFeature where
  name : String
  description : Option String := none
  caniuse : Option (Sum String (List String)) := none
  compat_features : Option (List String) := none
  status : WfStatus
  group : Option String := none

/-- Payload of an MDN __compat block. -/
structure MdnCompatInner where
  description : Option String := none
  mdn_url : Option String := none
  support : TargetBrowser → Option MdnSupport

/-- MDN compat statement: a node that may carry a __compat block. -/
structure MdnCompatStatement where
  __compat : Option MdnCompatInner := none

-- ===========================================================================
-- Feature merger (normalize.ts section of useFeatureUrl.ts)
-- ===========================================================================

/-- First-match association lookup (JS object access; keys are unique). -/
def assocGet {α : Type} (l : List (String × α)) (k : String) : Option α :=
  (l.find? (fun e => e.1 == k)).map (fun e => e.2)

/-- Map.get for a map built by repeated Map.set: the last set wins. -/
def assocGetLast {α : Type} (l : List (String × α)) (k : String) : Option α :=
  (l.reverse.find? (fun e => e.1 == k)).map (fun e => e.2)

/-- Support record built by writing an entry for every target browser
(the per-browser loop of processCaniuse). -/
def setAllSupport (g : TargetBrowser → BrowserSupportDetail) : BrowserSupport :=
  TARGET_BROWSERS.foldl (fun m b => supportSet m b (g b)) emptySupport

/-- Loop body of the native-data collection pass shared by
createFeatureFromWebFeatures and createFeatureFromMdn. -/
def collectNativeStep (extract : TargetBrowser → Option BrowserSupportDetail)
    (acc : BrowserSupport × List TargetBrowser) (b : TargetBrowser) :
    BrowserSupport × List TargetBrowser :=
  match extract b with
  | some d => (supportSet acc.1 b d, acc.2 ++ [b])
  | none => acc

/-- First pass of the secondary/tertiary creation paths: collect the
browsers with native data and their extracted details. -/
def collectNativeSupport
    (extract : TargetBrowser → Option BrowserSupportDetail) :
    BrowserSupport × List TargetBrowser :=
  TARGET_BROWSERS.foldl (collectNativeStep extract) (emptySupport, [])

/-- Loop body of the inference pass: browsers without native data get
inferred support. -/
def inferStep (browsersWithData : List TargetBrowser) (m : BrowserSupport)
    (b : TargetBrowser) : BrowserSupport :=
  if browsersWithData.contains b then m
  else supportSet m b (inferBrowserSupport b browsersWithData m)

/-- Second pass of the secondary/tertiary creation paths: fill every
browser without native data by inference. -/
def completeSupport (firstPass : BrowserSupport × List TargetBrowser) :
    BrowserSupport :=
  TARGET_BROWSERS.foldl (inferStep firstPass.2) firstPass.1

/-- Loop body of processCaniuse for one (id, feature) entry: build the
support record for every target browser, attach actual usage, and
normalize. -/
def processCaniuseFeature (id : String) (feature : CaniuseFeature)
    (usage : AltWw) : NormalizedFeature :=
  let support := setAllSupport (extractCaniuseBrowserSupport feature.stats)
  let usageData := calculateActualUsage feature (some support) (some usage)
  let category := mapCaniuseCategory feature.categories
  { id := id,
    source := .caniuse,
    name := normalizeCodeTags feature.title,
    description := normalizeCodeTags feature.description,
    category := category,
    mdn := none,
    links := feature.links,
    support := support,
    usage := { global := usageData.global, byBrowser := usageData.byBrowser,
               type := .actual },
    notes := some { general := feature.notes, byNum := feature.notes_by_num },
    flags := none,
    baseline := .fls,
    sourceData := { primary := { source := "caniuse", id := id },
                    supplementary := [] },
    caniuseUrl := "https://caniuse.com/?search=" ++ encodeURIComponent id }

/-- processCaniuse: normalize every primary-source entry into the map. -/
def processCaniuse (features : FeatMap)
    (caniuseFeatures : List (String × CaniuseFeature)) (usage : AltWw) :
    FeatMap :=
  caniuseFeatures.foldl
    (fun m e => m.set e.1 (processCaniuseFeature e.1 e.2 usage)) features

/-- supplementWithWebFeatures: set the baseline tier when the secondary
record carries a truthy one and append a provenance entry. -/
def supplementWithWebFeatures (feature : NormalizedFeature)
    (wfFeature : WebFeature) (wfId : String) : NormalizedFeature :=
  let baseline1 :=
    match wfFeature.status.baseline with
    | some .high => BaselineValue.high
    | some .low => BaselineValue.low
    | _ => feature.baseline
  { feature with
    baseline := baseline1,
    sourceData := { feature.sourceData with
      supplementary := feature.sourceData.supplementary ++
        [{ source := "webfeatures", id := wfId, matched := .exact }] } }

/-- createFeatureFromWebFeatures: synthesize a standalone record from a
secondary-source entry, inferring support for browsers without data. -/
def createFeatureFromWebFeatures (wfId : String) (wfFeature : WebFeature)
    (usage : AltWw) : NormalizedFeature :=
  let firstPass := collectNativeSupport
    (extractWebFeaturesBrowserSupport wfFeature.status.support)
  let support := completeSupport firstPass
  let usageData := estimateUsage support usage none
  { id := "wf-" ++ wfId,
    source := .webfeatures,
    name := normalizeCodeTags wfFeature.name,
    description := normalizeCodeTags (wfFeature.description.getD ""),
    category := .other,
    mdn := none,
    links := [],
    support := support,
    usage := { global := usageData.global, byBrowser := usageData.byBrowser,
               type := .estimated },
    notes := none,
    flags := none,
    baseline :=
      (match wfFeature.status.baseline with
       | some .high => BaselineValue.high
       | some .low => BaselineValue.low
       | _ => BaselineValue.fls),
    sourceData := { primary := { source := "webfeatures", id := wfId },
                    supplementary := [] },
    caniuseUrl := "https://caniuse.com/?search=" ++ encodeURIComponent wfId }

/-- The caniuse ids a Web Features record links to:
webFeatures.features[id]?.caniuse || [] then array-wrapped. -/
def wfCaniuseIds (wf : WebFeature) : List String :=
  match wf.caniuse with
  | some (.inl s) => if s = "" then [] else [s]
  | some (.inr l) => l
  | none => []

/-- Loop body of processWebFeatures for one (wfId, wfFeature) entry:
strategy 1 merges via an explicit caniuse id, strategy 2 merges via the
duplicate heuristic, otherwise a new wf- record is inserted. -/
def processWebFeatureEntry (usage : AltWw) (features : FeatMap)
    (wfId : String) (wfFeature : WebFeature) : FeatMap :=
  let viaExplicit : Option (String × NormalizedFeature) :=
    (wfCaniuseIds wfFeature).firstM (fun caniuseId =>
      (features.get caniuseId).map (fun f => (caniuseId, f)))
  match viaExplicit with
  | some (caniuseId, existingFeature) =>
    features.set caniuseId
      (supplementWithWebFeatures existingFeature wfFeature wfId)
  | none =>
    match features.find? (fun e =>
        areLikelyDuplicates (wfId, wfFeature.name) (e.1, e.2.name)) with
    | some e =>
      features.set e.1 (supplementWithWebFeatures e.2 wfFeature wfId)
    | none =>
      features.set ("wf-" ++ wfId)
        (createFeatureFromWebFeatures wfId wfFeature usage)

/-- supplementWithMdn: set the MDN documentation link when present and
append a provenance entry; a record without __compat is left unchanged. -/
def supplementWithMdn (feature : NormalizedFeature) (mdnPath : String)
    (compat : MdnCompatStatement) : NormalizedFeature :=
  match compat.__compat with
  | none => feature
  | some inner =>
    let feature1 :=
      match strTruthy inner.mdn_url with
      | some u => { feature with mdn := some u }
      | none => feature
    { feature1 with sourceData := { feature1.sourceData with
        supplementary := feature1.sourceData.supplementary ++
          [{ source := "mdnbcd", id := mdnPath, matched := .via_webfeatures }] } }

/-- Native-data extraction of the tertiary creation path: the browser's
support value, if present, run through extractMdnBrowserSupport. -/
def mdnNativeExtract (inner : MdnCompatInner) (b : TargetBrowser) :
    Option BrowserSupportDetail :=
  match inner.support b with
  | some mdnSupport => extractMdnBrowserSupport mdnSupport b
  | none => none

/-- createFeatureFromMdn: synthesize a standalone record from a tertiary
MDN entry (none models the missing-__compat throw, which the caller
guards against). -/
def createFeatureFromMdn (mdnPath : String) (compat : MdnCompatStatement)
    (usage : AltWw) : Option NormalizedFeature :=
  match compat.__compat with
  | none => none
  | some inner =>
    let firstPass := collectNativeSupport (mdnNativeExtract inner)
    let support := completeSupport firstPass
    let usageData := estimateUsage support usage none
    let inferredName := inferNameFromMdnPath mdnPath
    let name :=
      match strTruthy inner.description with
      | some d => d
      | none => inferredName
    let formattedName := formatFeatureName name
      (some (categoryName (inferCategoryFromMdnPath mdnPath)))
    some
      { id := "mdn-" ++ mdnPath,
        source := .mdnbcd,
        name := formattedName,
        description := normalizeCodeTags (inner.description.getD ""),
        category := inferCategoryFromMdnPath mdnPath,
        mdn := inner.mdn_url,
        links := [],
        support := support,
        usage := { global := usageData.global,
                   byBrowser := usageData.byBrowser, type := .estimated },
        notes := none,
        flags := none,
        baseline := .fls,
        sourceData := { primary := { source := "mdnbcd", id := mdnPath },
                        supplementary := [] },
        caniuseUrl := "https://caniuse.com/?search=" ++
          encodeURIComponent mdnPath }

/-- The compat_features -> wfId lookup map built by processMdnBcd (a Map,
so a later set for the same path wins). -/
def buildMdnToWfMap (wfFeatures : List (String × WebFeature)) :
    List (String × String) :=
  wfFeatures.foldl
    (fun m e =>
      match e.2.compat_features with
      | some paths => m ++ paths.map (fun p => (p, e.1))
      | none => m) []

/-- Loop body of processMdnBcd for one extracted (path, compat) entry:
strategy 1 links through the Web Features compat map, strategy 2 uses
the duplicate heuristic, otherwise a new mdn- record is inserted. -/
def processMdnEntry (mdnToWfMap : List (String × String))
    (wfFeatures : List (String × WebFeature)) (usage : AltWw)
    (features : FeatMap) (path : String) (compat : MdnCompatStatement) :
    FeatMap :=
  match compat.__compat with
  | none => features
  | some inner =>
    let viaWf : Option FeatMap :=
      match assocGetLast mdnToWfMap path with
      | none => none
      | some linkedWfId =>
        let caniuseIdArray :=
          match assocGet wfFeatures linkedWfId with
          | some wf => wfCaniuseIds wf
          | none => []
        let viaCaniuse : Option (String × NormalizedFeature) :=
          caniuseIdArray.firstM (fun caniuseId =>
            (features.get caniuseId).map (fun f => (caniuseId, f)))
        match viaCaniuse with
        | some (caniuseId, existingFeature) =>
          some (features.set caniuseId
            (supplementWithMdn existingFeature path compat))
        | none =>
          match features.get ("wf-" ++ linkedWfId) with
          | some wfFeature =>
            some (features.set ("wf-" ++ linkedWfId)
              (supplementWithMdn wfFeature path compat))
          | none => none
    match viaWf with
    | some merged => merged
    | none =>
      let mdnName :=
        match strTruthy inner.description with
        | some d => d
        | none => inferNameFromMdnPath path
      match features.find? (fun e =>
          areLikelyDuplicates (path, mdnName) (e.1, e.2.name)) with
      | some e =>
        features.set e.1 (supplementWithMdn e.2 path compat)
      | none =>
        match createFeatureFromMdn path compat usage with
        | some newFeature => features.set ("mdn-" ++ path) newFeature
        | none => features

-- ===========================================================================
-- Change detector (src/scripts/detect-changes.ts)
-- ===========================================================================

/-- Quick per-browser status of the search index. -/
inductive QuickStatus where
  | y | a | n | p
deriving DecidableEq

/-- Search-index projection of a feature. -/
structure FeatureIndex where
  id : String
  name : String
  description : String
  category : String
  support : List (String × QuickStatus)
  usage : ℚ
  baseline : BaselineValue
deriving DecidableEq

/-- Usage change entry of a change report. -/
structure UsageChange where
  old : ℚ
  new : ℚ
  delta : ℚ
deriving DecidableEq

/-- Per-browser support transition of a change report (old is undefined
when the browser key was absent from the previous snapshot). -/
structure SupportChange where
  browser : String
  old : Option QuickStatus
  new : QuickStatus
deriving DecidableEq

/-- Baseline transition of a change report. -/
structure BaselineChange where
  old : BaselineValue
  new : BaselineValue
deriving DecidableEq

/-- changes block of a FeatureChange. -/
structure FeatureChangeSet where
  usage : Option UsageChange := none
  support : Option (List SupportChange) := none
  baseline : Option BaselineChange := none
deriving DecidableEq

/-- One changed feature of a change report. -/
structure FeatureChange where
  featureId : String
  changes : FeatureChangeSet
deriving DecidableEq

/-- detectChanges: diff the current index against the previous snapshot;
features absent from the previous snapshot are skipped. -/
def detectChanges (current previous : List FeatureIndex) :
    List FeatureChange :=
  current.filterMap (fun currFeature =>
    match (previous.reverse.find? (fun p => p.id == currFeature.id)) with
    | none => none
    | some prevFeature =>
      let usageDelta := |currFeature.usage - prevFeature.usage|
      let usageChange : Option UsageChange :=
        if usageDelta > 1 then
          some { old := prevFeature.usage, new := currFeature.usage,
                 delta := currFeature.usage - prevFeature.usage }
        else none
      let supportChanges : List SupportChange :=
        currFeature.support.filterMap (fun e =>
          let oldStatus := assocGet prevFeature.support e.1
          if oldStatus ≠ some e.2 then
            some { browser := e.1, old := oldStatus, new := e.2 }
          else none)
      let supportChange : Option (List SupportChange) :=
        if supportChanges.length > 0 then some supportChanges else none
      let baselineChange : Option BaselineChange :=
        if currFeature.baseline ≠ prevFeature.baseline then
          some { old := prevFeature.baseline, new := currFeature.baseline }
        else none
      if usageChange ≠ none ∨ supportChange ≠ none ∨ baselineChange ≠ none
      then
        some { featureId := currFeature.id,
               changes := { usage := usageChange, support := supportChange,
                            baseline := baselineChange } }
      else none)

-- ===========================================================================
-- Trigger evaluator (src/scripts, notification stage)
-- ===========================================================================

/-- User-configured trigger (the frontend union of featureTracking.ts; the
evaluator receives these as stored, including browser_version). -/
inductive Trigger where
  | browser_support (browser : String) (targetStatus : String)
  | browser_version (browser : String) (version : String)
      (targetStatus : String)
  | usage_threshold (usageType : String) (threshold : ℚ)
  | baseline_status (targetStatus : String)
deriving DecidableEq

/-- checkUsageThreshold (full-feature variant): previous value recovered by
delta subtraction for the full/partial subsets and taken from the
reported old value for the total/combined/default subset; fires only on
a strict crossing. -/
def checkUsageThreshold (usageType : String) (threshold : ℚ)
    (fullFeature : NormalizedFeature) (changes : FeatureChangeSet) : Bool :=
  match changes.usage with
  | none => false
  | some u =>
    let cp : ℚ × ℚ :=
      if usageType = "full" then
        (fullFeature.usage.global.full, fullFeature.usage.global.full - u.delta)
      else if usageType = "partial" then
        (fullFeature.usage.global.part, fullFeature.usage.global.part - u.delta)
      else
        (fullFeature.usage.global.total, u.old)
    decide (cp.1 ≥ threshold ∧ cp.2 < threshold)

/-- checkBrowserSupport: fires when the reported new status of the
trigger's browser equals the mapped target status. -/
def checkBrowserSupport (browser : String) (targetStatus : String)
    (changes : FeatureChangeSet) : Bool :=
  match changes.support with
  | none => false
  | some supportChanges =>
    match supportChanges.find? (fun s => s.browser == browser) with
    | none => false
    | some browserChange =>
      let target : QuickStatus := if targetStatus = "y" then .y else .a
      browserChange.new == target

/-- checkBaselineStatus: target low is satisfied by low or high, otherwise
the new tier must equal the target. -/
def checkBaselineStatus (targetStatus : String)
    (changes : FeatureChangeSet) : Bool :=
  match changes.baseline with
  | none => false
  | some bc =>
    if targetStatus = "low" then
      bc.new == BaselineValue.low || bc.new == BaselineValue.high
    else
      match bc.new with
      | .high => targetStatus == "high"
      | .low => targetStatus == "low"
      | .fls => false

/-- evaluateTriggers: dispatch on the trigger type; the switch has cases
for usage_threshold, browser_support and baseline_status only, so any
other variant leaves isMet false. -/
def evaluateTriggerStep (fullFeature : NormalizedFeature)
    (changes : FeatureChangeSet) (metTriggers : List Trigger)
    (trigger : Trigger) : List Trigger :=
  let isMet :=
    match trigger with
    | .usage_threshold usageType threshold =>
      checkUsageThreshold usageType threshold fullFeature changes
    | .browser_support browser targetStatus =>
      checkBrowserSupport browser targetStatus changes
    | .baseline_status targetStatus =>
      checkBaselineStatus targetStatus changes
    | .browser_version _ _ _ => false
  if isMet then metTriggers ++ [trigger] else metTriggers

/-- evaluateTriggers: fold the dispatch over the trigger list, collecting
the triggers whose check fired. -/
def evaluateTriggers (triggers : List Trigger)
    (_indexFeature : FeatureIndex) (fullFeature : NormalizedFeature)
    (changes : FeatureChangeSet) : List Trigger :=
  triggers.foldl (evaluateTriggerStep fullFeature changes) []

-- ===========================================================================
-- Concrete test vectors used by witnesses and counterexamples
-- ===========================================================================

/-- Usage table with no per-browser data. -/
def exAltWw : AltWw := fun _ => none

/-- Caniuse feature whose stats table has no browser entries. -/
def exEmptyStatsFeature : CaniuseFeature :=
  { title := "X", description := "", stats := fun _ => none }

/-- Chrome stats of the grid scenario: full support from version 57. -/
def gridStats : TargetBrowser → Option (List (String × String)) :=
  fun b => if b = .chrome then some [("56", "n"), ("57", "y"), ("58", "y")]
    else none

/-- Primary-source record of the grid scenario: Chrome reaches full support
at 57, global usage 92%. -/
def gridCaniuse : CaniuseFeature :=
  { title := "CSS Grid Layout (level 1)",
    description := "Method of using a grid concept to lay out content.",
    categories := ["CSS"],
    stats := gridStats,
    usage_perc_y := some 92 }

/-- Merged map holding only the primary grid feature. -/
def gridFeaturesBefore : FeatMap :=
  processCaniuse [] [("grid", gridCaniuse)] exAltWw

/-- Tertiary record of the grid scenario at css.properties.display.grid:
fully supported from Chrome 57. -/
def gridCompat : MdnCompatStatement :=
  { __compat := some
      { description := none,
        mdn_url := some "https://developer.mozilla.org/docs/Web/CSS/display",
        support := fun b =>
          if b = .chrome then some (.inl { version_added := .ver "57" })
          else none } }

/-- Merged map after the tertiary grid record is processed. -/
def gridFeaturesAfter : FeatMap :=
  processMdnEntry [] [] exAltWw gridFeaturesBefore
    "css.properties.display.grid" gridCompat

/-- Index entry of feature abc in the previous snapshot (usage 78%). -/
def exPrevIndex : FeatureIndex :=
  { id := "abc", name := "abc", description := "", category := "CSS",
    support := [], usage := 78, baseline := .fls }

/-- Index entry of feature abc in the current snapshot (usage 81.5%). -/
def exCurrIndex : FeatureIndex :=
  { id := "abc", name := "abc", description := "", category := "CSS",
    support := [], usage := 163/2, baseline := .fls }

/-- Change set reporting the 78 -> 81.5 usage move of feature abc. -/
def exChangeSet : FeatureChangeSet :=
  { usage := some { old := 78, new := 163/2, delta := 7/2 } }

/-- Change set reporting a baseline move to low. -/
def exBaselineChangeSet : FeatureChangeSet :=
  { baseline := some { old := .fls, new := .low } }

/-- Minimal normalized feature used as evaluator input. -/
def exFullFeature : NormalizedFeature :=
  { id := "abc", source := .caniuse, name := "abc", description := "",
    category := .css, support := emptySupport,
    usage := { global := { full := 80, part := 3/2, total := 163/2 },
               byBrowser := {}, type := .actual },
    baseline := .fls,
    sourceData := { primary := { source := "caniuse", id := "abc" },
                    supplementary := [] },
    caniuseUrl := "" }

/-- Minimal Web Features record used as supplement input. -/
def exWfFeature : WebFeature :=
  { name := "abc", status := { baseline := some .high, support := fun _ => none } }

lemma padF_nil (i : ℕ) : padF [] i = 0 := by
  simp [padF]

lemma padF_cons_zero (x : Int) (xs : List Int) : padF (x :: xs) 0 = x := rfl

lemma padF_cons_shift (x : Int) (xs : List Int) :
    (fun i => padF (x :: xs) (i + 1)) = padF xs := by
  funext i
  simp [padF]

lemma padF_nil_shift : (fun i => padF ([] : List Int) (i + 1)) = padF [] := by
  funext i
  simp [padF]

lemma fcmp_eq_zero_iff :
    ∀ (n : ℕ) (f g : ℕ → Int), fcmp f g n = 0 ↔ ∀ i < n, f i = g i := by
  intro n
  induction n with
  | zero => intro f g; simp [fcmp]
  | succ n ih =>
    intro f g
    simp only [fcmp]
    by_cases h1 : f 0 < g 0
    · simp only [h1, if_true]
      constructor
      · intro h; exact absurd h (by decide)
      · intro h
        have := h 0 (Nat.succ_pos n)
        omega
    · simp only [h1, if_false]
      by_cases h2 : g 0 < f 0
      · simp only [h2, if_true]
        constructor
        · intro h; exact absurd h (by decide)
        · intro h
          have := h 0 (Nat.succ_pos n)
          omega
      · simp only [h2, if_false]
        have h0 : f 0 = g 0 := le_antisymm (not_lt.mp h2) (not_lt.mp h1)
        rw [ih]
        constructor
        · intro h i hi
          cases i with
          | zero => exact h0
          | succ j => exact h j (Nat.lt_of_succ_lt_succ hi)
        · intro h i hi
          exact h (i + 1) (Nat.succ_lt_succ hi)

lemma fcmp_trans_neg :
    ∀ (n : ℕ) (f g h : ℕ → Int),
      fcmp f g n = -1 → fcmp g h n = -1 → fcmp f h n = -1 := by
  intro n
  induction n with
  | zero => intro f g h hfg _; exact absurd hfg (by simp [fcmp])
  | succ n ih =>
    intro f g h hfg hgh
    simp only [fcmp] at hfg hgh ⊢
    by_cases h1 : f 0 < g 0
    · by_cases h2 : g 0 < h 0
      · simp [lt_trans h1 h2]
      · simp only [h2, if_false] at hgh
        by_cases h3 : h 0 < g 0
        · simp [h3] at hgh
        · have hgh0 : g 0 = h 0 := by omega
          rw [hgh0] at h1
          simp [h1]
    · simp only [h1, if_false] at hfg
      by_cases h2 : g 0 < f 0
      · simp [h2] at hfg
      · have hfg0 : f 0 = g 0 := by omega
        simp only [h2, if_false] at hfg
        by_cases h3 : g 0 < h 0
        · rw [hfg0]
          simp [h3]
        · simp only [h3, if_false] at hgh
          by_cases h4 : h 0 < g 0
          · simp [h4] at hgh
          · have hgh0 : g 0 = h 0 := by omega
            simp only [h4, if_false] at hgh
            have hnf : ¬ f 0 < h 0 := by omega
            have hnh : ¬ h 0 < f 0 := by omega
            simp only [hnf, hnh, if_false]
            exact ih _ _ _ hfg hgh

lemma fcmp_swap :
    ∀ (n : ℕ) (f g : ℕ → Int), fcmp g f n = -fcmp f g n := by
  intro n
  induction n with
  | zero => intro f g; simp [fcmp]
  | succ n ih =>
    intro f g
    simp only [fcmp]
    by_cases h1 : f 0 < g 0
    · have : ¬ g 0 < f 0 := by omega
      simp [h1, this]
    · by_cases h2 : g 0 < f 0
      · simp [h1, h2]
      · simp only [h1, h2, if_false]
        exact ih _ _

lemma fcmp_values :
    ∀ (n : ℕ) (f g : ℕ → Int),
      fcmp f g n = -1 ∨ fcmp f g n = 0 ∨ fcmp f g n = 1 := by
  intro n
  induction n with
  | zero => intro f g; simp [fcmp]
  | succ n ih =>
    intro f g
    simp only [fcmp]
    by_cases h1 : f 0 < g 0
    · simp [h1]
    · by_cases h2 : g 0 < f 0
      · simp [h1, h2]
      · simp only [h1, h2, if_false]
        exact ih _ _

lemma fcmp_stable :
    ∀ (n : ℕ) (f g : ℕ → Int) (k : ℕ), (∀ i, n ≤ i → f i = g i) →
      fcmp f g (n + k) = fcmp f g n := by
  intro n
  induction n with
  | zero =>
    intro f g k h
    rw [Nat.zero_add]
    have h0 : fcmp f g 0 = 0 := rfl
    rw [h0, fcmp_eq_zero_iff]
    intro i _
    exact h i (Nat.zero_le i)
  | succ n ih =>
    intro f g k h
    have hnk : n + 1 + k = (n + k) + 1 := by omega
    rw [hnk]
    simp only [fcmp]
    by_cases h1 : f 0 < g 0
    · simp [h1]
    · simp only [h1, if_false]
      by_cases h2 : g 0 < f 0
      · simp [h2]
      · simp only [h2, if_false]
        exact ih _ _ k (fun i hi => h (i + 1) (Nat.succ_le_succ hi))

lemma partsCmp_eq_fcmp (n : ℕ) (a b : List Int)
    (ha : a.length ≤ n) (hb : b.length ≤ n) :
    partsCmp a b = fcmp (padF a) (padF b) n := by
  have hpad : ∀ i, max a.length b.length ≤ i → padF a i = padF b i := by
    intro i hi
    unfold padF
    rw [List.getD_eq_default a 0 (le_trans (le_max_left _ _) hi),
      List.getD_eq_default b 0 (le_trans (le_max_right _ _) hi)]
  have hst := fcmp_stable (max a.length b.length) (padF a) (padF b)
    (n - max a.length b.length) hpad
  unfold partsCmp
  rw [← hst]
  congr 1
  omega

lemma partsCmp_refl (l : List Int) : partsCmp l l = 0 := by
  unfold partsCmp
  rw [fcmp_eq_zero_iff]
  intro i _
  rfl

/-- Canonical key of a version string: sentinel "TP" on top, sentinel "all"
at the bottom, otherwise the numeric part list. -/
inductive VKey where
  | bot : VKey
  | parts (l : List Int) : VKey
  | top : VKey
deriving DecidableEq

/-- Key of a version string. -/
def toKey (v : String) : VKey :=
  if v = "TP" then .top else if v = "all" then .bot else .parts (toParts v)

/-- Comparison of version keys. -/
def keyCompare : VKey → VKey → Int
  | .top, .top => 0
  | .top, _ => 1
  | _, .top => -1
  | .bot, .bot => 0
  | .bot, _ => -1
  | _, .bot => 1
  | .parts a, .parts b => partsCmp a b

lemma keyCompare_refl (k : VKey) : keyCompare k k = 0 := by
  cases k <;> simp [keyCompare, partsCmp_refl]

lemma compareVersions_eq_keyCompare (a b : String) :
    compareVersions a b = keyCompare (toKey a) (toKey b) := by
  unfold compareVersions toKey
  by_cases hab : a = b
  · subst hab
    simp only [if_true]
    by_cases h1 : a = "TP"
    · simp [h1, keyCompare]
    · by_cases h2 : a = "all" <;> simp [h1, h2, keyCompare, partsCmp_refl]
  · simp only [hab, if_false]
    by_cases h1 : a = "TP"
    · have hb : b ≠ "TP" := fun h => hab (h1.trans h.symm)
      by_cases h2 : b = "all" <;> simp [h1, h2, hb, keyCompare]
    · simp only [h1, if_false]
      by_cases h2 : b = "TP"
      · by_cases h3 : a = "all" <;> simp [h2, h3, keyCompare]
      · simp only [h2, if_false]
        by_cases h3 : a = "all"
        · have hb : b ≠ "all" := fun h => hab (h3.trans h.symm)
          simp [h3, h2, hb, keyCompare]
        · simp only [h3, if_false]
          by_cases h4 : b = "all" <;> simp [h1, h2, h3, h4, keyCompare]

/-- What a version string denotes: one of the two sentinels or the infinite
zero-padded sequence of its numeric parts. -/
inductive VDenote where
  | allVersions : VDenote
  | numeric (f : ℕ → Int) : VDenote
  | preview : VDenote

/-- Denotation of a version string under the comparator's parsing rules. -/
def denoteVersion (v : String) : VDenote :=
  if v = "TP" then .preview
  else if v = "all" then .allVersions
  else .numeric (padF (toParts v))

lemma partsCmp_eq_zero_iff (a b : List Int) :
    partsCmp a b = 0 ↔ padF a = padF b := by
  set n := max a.length b.length with hn
  rw [partsCmp_eq_fcmp n a b (le_max_left _ _) (le_max_right _ _),
    fcmp_eq_zero_iff]
  constructor
  · intro h
    funext i
    by_cases hi : i < n
    · exact h i hi
    · have hia : a.length ≤ i := le_trans (le_max_left _ _) (not_lt.mp hi)
      have hib : b.length ≤ i := le_trans (le_max_right _ _) (not_lt.mp hi)
      unfold padF
      rw [List.getD_eq_default a 0 hia, List.getD_eq_default b 0 hib]
  · intro h i _
    rw [h]

lemma partsCmp_trans_neg {a b c : List Int}
    (h1 : partsCmp a b = -1) (h2 : partsCmp b c = -1) : partsCmp a c = -1 := by
  set n := max (max a.length b.length) c.length with hn
  have ha : a.length ≤ n := le_trans (le_max_left _ _) (le_max_left _ _)
  have hb : b.length ≤ n := le_trans (le_max_right _ _) (le_max_left _ _)
  have hc : c.length ≤ n := le_max_right _ _
  rw [partsCmp_eq_fcmp n a b ha hb] at h1
  rw [partsCmp_eq_fcmp n b c hb hc] at h2
  rw [partsCmp_eq_fcmp n a c ha hc]
  exact fcmp_trans_neg n _ _ _ h1 h2

lemma partsCmp_swap (a b : List Int) : partsCmp b a = -partsCmp a b := by
  set n := max a.length b.length with hn
  rw [partsCmp_eq_fcmp n a b (le_max_left _ _) (le_max_right _ _),
    partsCmp_eq_fcmp n b a (le_max_right _ _) (le_max_left _ _)]
  exact fcmp_swap n _ _

lemma partsCmp_values (a b : List Int) :
    partsCmp a b = -1 ∨ partsCmp a b = 0 ∨ partsCmp a b = 1 := by
  set n := max a.length b.length with hn
  rw [partsCmp_eq_fcmp n a b (le_max_left _ _) (le_max_right _ _)]
  exact fcmp_values n _ _

lemma keyCompare_trans_neg {k1 k2 k3 : VKey}
    (h1 : keyCompare k1 k2 = -1) (h2 : keyCompare k2 k3 = -1) :
    keyCompare k1 k3 = -1 := by
  cases k1 <;> cases k2 <;> cases k3 <;>
    simp [keyCompare] at h1 h2 ⊢ <;>
    exact partsCmp_trans_neg h1 h2

lemma keyCompare_swap (k1 k2 : VKey) : keyCompare k2 k1 = -keyCompare k1 k2 := by
  cases k1 <;> cases k2 <;>
    simp only [keyCompare] <;>
    first
      | decide
      | exact partsCmp_swap _ _

lemma keyCompare_values (k1 k2 : VKey) :
    keyCompare k1 k2 = -1 ∨ keyCompare k1 k2 = 0 ∨ keyCompare k1 k2 = 1 := by
  cases k1 <;> cases k2 <;> simp [keyCompare, partsCmp_values]

lemma compareVersions_zero_iff (a b : String) :
    compareVersions a b = 0 ↔ denoteVersion a = denoteVersion b := by
  rw [compareVersions_eq_keyCompare]
  unfold toKey denoteVersion
  by_cases h1 : a = "TP" <;> by_cases h2 : b = "TP" <;>
    by_cases h3 : a = "all" <;> by_cases h4 : b = "all" <;>
    simp only [h1, h2, h3, h4, if_true, if_false, keyCompare] <;>
    simp_all [keyCompare, partsCmp_eq_zero_iff]

/-- C1. compareVersions is a strict total order on version strings: it is
reflexive-at-zero (compare(a,a)=0), antisymmetric in the sense that it
returns 0 exactly when the two strings denote the same version (same
sentinel, or the same infinite zero-padded numeric part sequence),
transitive, antisymmetric under swapping, valued in {-1,0,1}, the
preview sentinel "TP" compares greater than any other version and the
"all" sentinel compares less than any numeric version. -/
theorem compareVersions_strict_total_order :
    (∀ a : String, compareVersions a a = 0) ∧
    (∀ a b : String,
      compareVersions a b = 0 ↔ denoteVersion a = denoteVersion b) ∧
    (∀ a b c : String, compareVersions a b = -1 → compareVersions b c = -1 →
      compareVersions a c = -1) ∧
    (∀ a b : String, compareVersions b a = -compareVersions a b) ∧
    (∀ a b : String, compareVersions a b = -1 ∨ compareVersions a b = 0 ∨
      compareVersions a b = 1) ∧
    (∀ v : String, v ≠ "TP" →
      compareVersions "TP" v = 1 ∧ compareVersions v "TP" = -1) ∧
    (∀ v : String, v ≠ "all" → v ≠ "TP" →
      compareVersions "all" v = -1 ∧ compareVersions v "all" = 1) := by
  refine ⟨?_, ?_, ?_, ?_, ?_, ?_, ?_⟩
  · intro a
    simp [compareVersions]
  · exact compareVersions_zero_iff
  · intro a b c h1 h2
    rw [compareVersions_eq_keyCompare] at h1 h2 ⊢
    exact keyCompare_trans_neg h1 h2
  · intro a b
    rw [compareVersions_eq_keyCompare, compareVersions_eq_keyCompare]
    exact keyCompare_swap _ _
  · intro a b
    rw [compareVersions_eq_keyCompare]
    exact keyCompare_values _ _
  · intro v hv
    have hv2 : "TP" ≠ v := fun h => hv h.symm
    constructor
    · simp [compareVersions, hv2]
    · simp [compareVersions, hv, hv2.symm]
  · intro v hv htp
    have hv2 : "all" ≠ v := fun h => hv h.symm
    constructor
    · simp [compareVersions, hv2, htp]
    · simp [compareVersions, hv, hv2.symm, htp]

/-- Witness for C1: the transitivity and sentinel components applied at
concrete version strings. -/
theorem compareVersions_strict_total_order_witness :
    compareVersions "1.2" "10" = -1 ∧ compareVersions "TP" "128" = 1 ∧
    compareVersions "all" "128" = -1 :=
  ⟨compareVersions_strict_total_order.2.2.1 "1.2" "2" "10"
      (by decide) (by decide),
    (compareVersions_strict_total_order.2.2.2.2.2.1 "128" (by decide)).1,
    (compareVersions_strict_total_order.2.2.2.2.2.2 "128"
      (by decide) (by decide)).1⟩

-- ===========================================================================
-- Trigger evaluator theorems
-- ===========================================================================

/-- C4. checkUsageThreshold fires exactly when the change record contains a
usage change, the resolved current percentage (full, partial, or total
per the trigger's subset) meets the threshold, and the previous value
(current minus the reported delta for the full/partial subsets, the
reported old value otherwise) was strictly below it; with no usage
change entry it never fires. -/
theorem checkUsageThreshold_fires_iff (usageType : String) (threshold : ℚ)
    (fullFeature : NormalizedFeature) (changes : FeatureChangeSet) :
    checkUsageThreshold usageType threshold fullFeature changes = true ↔
      ∃ u, changes.usage = some u ∧
        (if usageType = "full" then
          fullFeature.usage.global.full ≥ threshold ∧
          fullFeature.usage.global.full - u.delta < threshold
        else if usageType = "partial" then
          fullFeature.usage.global.part ≥ threshold ∧
          fullFeature.usage.global.part - u.delta < threshold
        else
          fullFeature.usage.global.total ≥ threshold ∧
          u.old < threshold) := by
  unfold checkUsageThreshold
  cases h : changes.usage with
  | none => simp
  | some u =>
    by_cases h1 : usageType = "full"
    · simp [h1]
    · by_cases h2 : usageType = "partial" <;> simp [h1, h2]

lemma evaluateTriggers_fold_no_bv (fullFeature : NormalizedFeature)
    (changes : FeatureChangeSet) :
    ∀ (l acc : List Trigger),
      (∀ s ∈ acc, ∀ b v ts, s ≠ Trigger.browser_version b v ts) →
      ∀ t ∈ l.foldl (evaluateTriggerStep fullFeature changes) acc,
        ∀ b v ts, t ≠ Trigger.browser_version b v ts := by
  intro l
  induction l with
  | nil => intro acc hacc t ht; exact hacc t ht
  | cons hd tl ih =>
    intro acc hacc t ht
    refine ih (evaluateTriggerStep fullFeature changes acc hd) ?_ t ht
    intro s hs
    unfold evaluateTriggerStep at hs
    cases hd with
    | browser_version b0 v0 ts0 =>
      simp at hs
      exact hacc s hs
    | usage_threshold ut th =>
      simp only [] at hs
      split at hs
      · rcases List.mem_append.mp hs with h | h
        · exact hacc s h
        · intro b v ts
          simp at h
          rw [h]
          intro hcontr
          cases hcontr
      · exact hacc s hs
    | browser_support b0 ts0 =>
      simp only [] at hs
      split at hs
      · rcases List.mem_append.mp hs with h | h
        · exact hacc s h
        · intro b v ts
          simp at h
          rw [h]
          intro hcontr
          cases hcontr
      · exact hacc s hs
    | baseline_status ts0 =>
      simp only [] at hs
      split at hs
      · rcases List.mem_append.mp hs with h | h
        · exact hacc s h
        · intro b v ts
          simp at h
          rw [h]
          intro hcontr
          cases hcontr
      · exact hacc s hs

/-- C10. evaluateTriggers never returns a browser_version trigger: the
dispatch has cases only for usage_threshold, browser_support and
baseline_status, so a browser-version trigger can never fire. -/
theorem evaluateTriggers_no_browser_version (triggers : List Trigger)
    (indexFeature : FeatureIndex) (fullFeature : NormalizedFeature)
    (changes : FeatureChangeSet) (t : Trigger)
    (ht : t ∈ evaluateTriggers triggers indexFeature fullFeature changes) :
    ∀ b v ts, t ≠ Trigger.browser_version b v ts :=
  evaluateTriggers_fold_no_bv fullFeature changes triggers []
    (by intro s hs; cases hs) t ht

/-- Witness for C10: a firing baseline trigger is returned and is not a
browser_version trigger. -/
theorem evaluateTriggers_no_browser_version_witness :
    Trigger.baseline_status "low" ∈
      evaluateTriggers [Trigger.baseline_status "low"]
        exPrevIndex exFullFeature exBaselineChangeSet ∧
    Trigger.baseline_status "low" ≠ Trigger.browser_version "chrome" "57" "y" :=
  ⟨by decide,
   evaluateTriggers_no_browser_version [Trigger.baseline_status "low"]
     exPrevIndex exFullFeature exBaselineChangeSet
     (Trigger.baseline_status "low") (by decide) "chrome" "57" "y"⟩

-- ===========================================================================
-- Supplement frame theorems
-- ===========================================================================

/-- C6. Supplementing a matched feature from the secondary or tertiary
source never changes its support or usage; it only sets supplemental
metadata and appends exactly one provenance entry (for the tertiary
source, when the record carries a __compat block). -/
theorem supplement_preserves_support_usage :
    (∀ (f : NormalizedFeature) (wf : WebFeature) (wfId : String),
      (supplementWithWebFeatures f wf wfId).support = f.support ∧
      (supplementWithWebFeatures f wf wfId).usage = f.usage ∧
      (supplementWithWebFeatures f wf wfId).sourceData.supplementary =
        f.sourceData.supplementary ++
          [{ source := "webfeatures", id := wfId, matched := .exact }]) ∧
    (∀ (f : NormalizedFeature) (path : String) (compat : MdnCompatStatement),
      (supplementWithMdn f path compat).support = f.support ∧
      (supplementWithMdn f path compat).usage = f.usage) ∧
    (∀ (f : NormalizedFeature) (path : String) (compat : MdnCompatStatement)
      (inner : MdnCompatInner), compat.__compat = some inner →
      (supplementWithMdn f path compat).sourceData.supplementary =
        f.sourceData.supplementary ++
          [{ source := "mdnbcd", id := path, matched := .via_webfeatures }]) := by
  refine ⟨?_, ?_, ?_⟩
  · intro f wf wfId
    cases hb : wf.status.baseline with
    | none => simp [supplementWithWebFeatures, hb]
    | some b => cases b <;> simp [supplementWithWebFeatures, hb]
  · intro f path compat
    cases hc : compat.__compat with
    | none => simp [supplementWithMdn, hc]
    | some inner =>
      cases hm : strTruthy inner.mdn_url <;>
        simp [supplementWithMdn, hc, hm]
  · intro f path compat inner h
    cases hm : strTruthy inner.mdn_url <;>
      simp [supplementWithMdn, h, hm]

/-- Witness for C6: supplementing the grid feature with the tertiary grid
record appends exactly its provenance entry. -/
theorem supplement_preserves_support_usage_witness :
    (supplementWithMdn exFullFeature "css.properties.display.grid"
      gridCompat).sourceData.supplementary =
      exFullFeature.sourceData.supplementary ++
        [{ source := "mdnbcd", id := "css.properties.display.grid",
           matched := .via_webfeatures }] :=
  supplement_preserves_support_usage.2.2 exFullFeature
    "css.properties.display.grid" gridCompat _ rfl

-- ===========================================================================
-- Change detector theorems
-- ===========================================================================

lemma ite_some_inv {α : Type} {P : Prop} [Decidable P] {r c : α}
    (h : (if P then some r else none) = some c) : c = r := by
  by_cases hp : P
  · rw [if_pos hp] at h
    exact (Option.some.inj h).symm
  · rw [if_neg hp] at h
    cases h

/-- C5. detectChanges never reports a feature that has no entry of the same
id in the previous snapshot. -/
theorem detectChanges_skips_new (current previous : List FeatureIndex)
    (c : FeatureChange) (hc : c ∈ detectChanges current previous) :
    ∃ p ∈ previous, p.id = c.featureId := by
  unfold detectChanges at hc
  rcases List.mem_filterMap.mp hc with ⟨curr, hcurr, hf⟩
  cases hfind : (previous.reverse.find? (fun p => p.id == curr.id)) with
  | none => rw [hfind] at hf; simp at hf
  | some p =>
    rw [hfind] at hf
    have hmem : p ∈ previous :=
      List.mem_reverse.mp (List.mem_of_find?_eq_some hfind)
    have hpid : p.id = curr.id := by
      have h := List.find?_some hfind
      simpa using h
    refine ⟨p, hmem, ?_⟩
    simp only [] at hf
    have h2 := ite_some_inv hf
    rw [h2]
    exact hpid

/-- Witness for C5: the reported change of feature abc has an entry of the
same id in the previous snapshot. -/
theorem detectChanges_skips_new_witness :
    ∃ p ∈ [exPrevIndex], p.id =
      (FeatureChange.mk "abc" exChangeSet).featureId :=
  detectChanges_skips_new [exCurrIndex] [exPrevIndex]
    (FeatureChange.mk "abc" exChangeSet)
    (by
      have h : detectChanges [exCurrIndex] [exPrevIndex] =
          [FeatureChange.mk "abc" exChangeSet] := by
        norm_num [detectChanges, exCurrIndex, exPrevIndex, exChangeSet,
          List.filterMap, List.find?, assocGet, abs_of_pos]
        simp
      rw [h]
      exact List.mem_singleton.mpr rfl)

-- ===========================================================================
-- Usage estimator theorems
-- ===========================================================================

/-- C7. The interpolation fraction of the usage estimator is the clamped
linear fraction, always lies in [0,1] for a non-degenerate range, and is
monotonically non-increasing in the crossing point. -/
theorem rangeProportion_clamped_bounds_monotone (s e : ℚ) (hse : s < e) :
    (∀ v, rangeProportion s e v = max 0 (min 1 ((e - v) / (e - s)))) ∧
    (∀ v, 0 ≤ rangeProportion s e v ∧ rangeProportion s e v ≤ 1) ∧
    (∀ v1 v2, s ≤ v1 → v1 ≤ v2 → v2 ≤ e →
      rangeProportion s e v2 ≤ rangeProportion s e v1) := by
  refine ⟨fun v => rfl, fun v => ⟨le_max_left _ _, ?_⟩, ?_⟩
  · exact max_le zero_le_one (min_le_left _ _)
  · intro v1 v2 _ h12 _
    unfold rangeProportion
    have hpos : 0 < e - s := by linarith
    have hdiv : (e - v2) / (e - s) ≤ (e - v1) / (e - s) :=
      (div_le_div_iff_of_pos_right hpos).mpr (by linarith)
    exact max_le_max le_rfl (min_le_min le_rfl hdiv)

/-- Witness for C7: monotonicity of the fraction at concrete crossing
points inside the range [1,2]. -/
theorem rangeProportion_witness :
    rangeProportion 1 2 (3/2) ≤ rangeProportion 1 2 (5/4) :=
  (rangeProportion_clamped_bounds_monotone 1 2 (by norm_num)).2.2 (5/4) (3/2)
    (by norm_num) (by norm_num) (by norm_num)

lemma round2_add_bound (a b : ℚ) :
    |round2 (a + b) - (round2 a + round2 b)| ≤ 1/100 := by
  unfold round2 jsRound
  set A := ⌊a * 100 + 1/2⌋ with hA
  set B := ⌊b * 100 + 1/2⌋ with hB
  set C := ⌊(a + b) * 100 + 1/2⌋ with hC
  have hA1 : ((A : ℤ) : ℚ) ≤ a * 100 + 1/2 := Int.floor_le _
  have hA2 : a * 100 + 1/2 < ((A : ℤ) : ℚ) + 1 := Int.lt_floor_add_one _
  have hB1 : ((B : ℤ) : ℚ) ≤ b * 100 + 1/2 := Int.floor_le _
  have hB2 : b * 100 + 1/2 < ((B : ℤ) : ℚ) + 1 := Int.lt_floor_add_one _
  have hC1 : ((C : ℤ) : ℚ) ≤ (a + b) * 100 + 1/2 := Int.floor_le _
  have hC2 : (a + b) * 100 + 1/2 < ((C : ℤ) : ℚ) + 1 := Int.lt_floor_add_one _
  have hubZ : C - A - B ≤ 1 := by
    by_contra hcon
    push_neg at hcon
    have h2 : (2 : ℤ) ≤ C - A - B := by omega
    have h3 : (2 : ℚ) ≤ ((C - A - B : ℤ) : ℚ) := by exact_mod_cast h2
    push_cast at h3
    linarith
  have hlbZ : -1 ≤ C - A - B := by
    by_contra hcon
    push_neg at hcon
    have h2 : C - A - B ≤ -2 := by omega
    have h3 : ((C - A - B : ℤ) : ℚ) ≤ -2 := by exact_mod_cast h2
    push_cast at h3
    linarith
  rw [abs_le]
  have hu : ((C - A - B : ℤ) : ℚ) ≤ 1 := by exact_mod_cast hubZ
  have hl : (-1 : ℚ) ≤ ((C - A - B : ℤ) : ℚ) := by exact_mod_cast hlbZ
  push_cast at hu hl
  constructor
  · linarith
  · linarith

/-- C8. For every emitted usage block (estimated or actual), the stored
total differs from the sum of the stored full and partial percentages by
at most 0.01 after rounding to 2 decimals. -/
theorem usage_total_within_rounding
    (support : BrowserSupport) (usageData : AltWw)
    (preCalculated : Option PreCalculated)
    (feature : CaniuseFeature) (osupport : Option BrowserSupport)
    (ousage : Option AltWw) :
    |(estimateUsage support usageData preCalculated).global.total -
      ((estimateUsage support usageData preCalculated).global.full +
        (estimateUsage support usageData preCalculated).global.part)| ≤
      1/100 ∧
    |(calculateActualUsage feature osupport ousage).global.total -
      ((calculateActualUsage feature osupport ousage).global.full +
        (calculateActualUsage feature osupport ousage).global.part)| ≤
      1/100 := by
  have key : ∀ x y : ℚ,
      |(mkRoundedGlobal x y).total -
        ((mkRoundedGlobal x y).full + (mkRoundedGlobal x y).part)| ≤ 1/100 :=
    fun x y => round2_add_bound x y
  exact ⟨key _ _, key _ _⟩

-- ===========================================================================
-- MDN extractor theorems
-- ===========================================================================

/-- A support statement that contributes no version entry (version_added is
true, false or null). -/
def mdnSkipped (s : MdnSupportStatement) : Bool :=
  match s.version_added with
  | .ver _ => false
  | _ => true

lemma mdnExtractStep_versions (st : MdnExtractState) (s : MdnSupportStatement) :
    (mdnSkipped s = true ∧ (mdnExtractStep st s).versions = st.versions) ∨
    (mdnSkipped s = false ∧
      ∃ e, (mdnExtractStep st s).versions = st.versions ++ [e]) := by
  cases hv : s.version_added with
  | tru => left; simp [mdnExtractStep, mdnSkipped, hv]
  | fls => left; simp [mdnExtractStep, mdnSkipped, hv]
  | nul => left; simp [mdnExtractStep, mdnSkipped, hv]
  | ver v =>
    right
    refine ⟨by simp [mdnSkipped, hv], ?_⟩
    simp only [mdnExtractStep, hv]
    split_ifs <;> exact ⟨_, rfl⟩

lemma mdnFold_versions_nil_iff :
    ∀ (stmts : List MdnSupportStatement) (st : MdnExtractState),
      (stmts.foldl mdnExtractStep st).versions = [] ↔
        (st.versions = [] ∧ ∀ s ∈ stmts, mdnSkipped s = true) := by
  intro stmts
  induction stmts with
  | nil => intro st; simp
  | cons s ss ih =>
    intro st
    simp only [List.foldl_cons]
    rw [ih]
    rcases mdnExtractStep_versions st s with ⟨hsk, hv⟩ | ⟨hsk, e, hv⟩
    · rw [hv]
      simp [hsk]
    · rw [hv]
      simp [hsk]

lemma mdnExtractStep_preserves_y (st : MdnExtractState)
    (s : MdnSupportStatement) (h : st.currentStatus = .y) :
    (mdnExtractStep st s).currentStatus = .y := by
  cases hv : s.version_added with
  | tru => simp [mdnExtractStep, hv]
  | fls => simp [mdnExtractStep, hv, h]
  | nul => simp [mdnExtractStep, hv, h]
  | ver v =>
    simp only [mdnExtractStep, hv]
    split_ifs <;> simp_all

lemma mdnFold_preserves_y :
    ∀ (stmts : List MdnSupportStatement) (st : MdnExtractState),
      st.currentStatus = .y →
      (stmts.foldl mdnExtractStep st).currentStatus = .y := by
  intro stmts
  induction stmts with
  | nil => intro st h; exact h
  | cons s ss ih =>
    intro st h
    exact ih _ (mdnExtractStep_preserves_y st s h)

lemma mdnFold_tru_gives_y :
    ∀ (stmts : List MdnSupportStatement) (st : MdnExtractState),
      (∃ s ∈ stmts, s.version_added = .tru) →
      (stmts.foldl mdnExtractStep st).currentStatus = .y := by
  intro stmts
  induction stmts with
  | nil => intro st h; simp at h
  | cons s ss ih =>
    intro st h
    rcases h with ⟨s0, hs0, hv⟩
    rcases List.mem_cons.mp hs0 with h0 | h0
    · subst h0
      simp only [List.foldl_cons]
      apply mdnFold_preserves_y
      simp [mdnExtractStep, hv]
    · exact ih _ ⟨s0, h0, hv⟩

lemma mdnSkipped_iff (s : MdnSupportStatement) :
    mdnSkipped s = true ↔
      (s.version_added = .tru ∨ s.version_added = .fls ∨
        s.version_added = .nul) := by
  cases hv : s.version_added <;> simp [mdnSkipped, hv]

/-- C3 (amended). The tertiary extractor returns null exactly when no
statement carries a concrete version: statements with added = true,
false, or null all contribute no version entry, so a list of only such
statements gives null; and whenever a statement with added = true is
present, any non-null result has current status full. -/
theorem extractMdn_null_iff (stmts : List MdnSupportStatement)
    (b : TargetBrowser) :
    (extractMdnBrowserSupport (Sum.inr stmts) b = none ↔
      ∀ s ∈ stmts, s.version_added = .tru ∨ s.version_added = .fls ∨
        s.version_added = .nul) ∧
    ((∃ s ∈ stmts, s.version_added = .tru) →
      ∀ d, extractMdnBrowserSupport (Sum.inr stmts) b = some d →
        d.current = .y) := by
  constructor
  · unfold extractMdnBrowserSupport
    simp only []
    by_cases hlen :
        (stmts.foldl mdnExtractStep ({} : MdnExtractState)).versions.length = 0
    · rw [if_pos hlen]
      have hnil := List.length_eq_zero.mp hlen
      have := (mdnFold_versions_nil_iff stmts {}).mp hnil
      simp only [true_iff]
      intro s hs
      exact (mdnSkipped_iff s).mp (this.2 s hs)
    · rw [if_neg hlen]
      constructor
      · intro h
        cases h
      · intro hall
        exfalso
        apply hlen
        apply List.length_eq_zero.mpr
        apply (mdnFold_versions_nil_iff stmts {}).mpr
        exact ⟨rfl, fun s hs => (mdnSkipped_iff s).mpr (hall s hs)⟩
  · intro hex d hd
    have hy := mdnFold_tru_gives_y stmts {} hex
    unfold extractMdnBrowserSupport at hd
    simp only [] at hd
    by_cases hlen :
        (stmts.foldl mdnExtractStep ({} : MdnExtractState)).versions.length = 0
    · rw [if_pos hlen] at hd
      cases hd
    · rw [if_neg hlen] at hd
      have h2 := Option.some.inj hd
      rw [← h2]
      exact hy

/-- Witness for C3 (amended): a true statement next to a concrete-version
statement give a full-support detail. -/
theorem extractMdn_null_iff_witness :
    ({ current := .y, firstFull := some "5", firstPartial := none,
       versions := [{ version := "5", status := .y }] } :
        BrowserSupportDetail).current = SupportStatus.y :=
  (extractMdn_null_iff
      [{ version_added := .tru }, { version_added := .ver "5" }] .chrome).2
    ⟨{ version_added := .tru }, by simp, rfl⟩ _ rfl

/-- C3 counterexample: a statement list containing a statement with
added = true returns null (not a full-support detail) when no statement
carries a concrete version, contradicting the claim as stated. -/
theorem extractMdn_true_only_returns_none :
    extractMdnBrowserSupport (Sum.inr [{ version_added := .tru }]) .chrome =
      none := rfl

-- ===========================================================================
-- Support-map totality lemmas
-- ===========================================================================

lemma mem_TARGET_BROWSERS (b : TargetBrowser) : b ∈ TARGET_BROWSERS := by
  cases b <;> simp [TARGET_BROWSERS]

lemma setAll_fold_notmem (g : TargetBrowser → BrowserSupportDetail) :
    ∀ (bs : List TargetBrowser) (m : BrowserSupport) (b : TargetBrowser),
      b ∉ bs →
      (bs.foldl (fun m2 b2 => supportSet m2 b2 (g b2)) m) b = m b := by
  intro bs
  induction bs with
  | nil => intro m b _; rfl
  | cons b0 bs ih =>
    intro m b h
    simp only [List.foldl_cons]
    rw [ih _ b (fun hc => h (List.mem_cons_of_mem _ hc))]
    unfold supportSet
    have hb : b ≠ b0 := fun he => h (he ▸ List.mem_cons_self _ _)
    simp [hb]

lemma setAll_fold_mem (g : TargetBrowser → BrowserSupportDetail) :
    ∀ (bs : List TargetBrowser) (m : BrowserSupport) (b : TargetBrowser),
      b ∈ bs →
      (bs.foldl (fun m2 b2 => supportSet m2 b2 (g b2)) m) b = some (g b) := by
  intro bs
  induction bs with
  | nil => intro m b h; cases h
  | cons b0 bs ih =>
    intro m b h
    by_cases hbs : b ∈ bs
    · exact ih _ b hbs
    · have hbb0 : b = b0 := by
        rcases List.mem_cons.mp h with h1 | h1
        · exact h1
        · exact absurd h1 hbs
      subst hbb0
      simp only [List.foldl_cons]
      rw [setAll_fold_notmem g bs _ b hbs]
      unfold supportSet
      simp

lemma setAllSupport_eval (g : TargetBrowser → BrowserSupportDetail)
    (b : TargetBrowser) : setAllSupport g b = some (g b) := by
  unfold setAllSupport
  exact setAll_fold_mem g TARGET_BROWSERS emptySupport b (mem_TARGET_BROWSERS b)

lemma collect_fold_fst_none
    (extract : TargetBrowser → Option BrowserSupportDetail)
    (b : TargetBrowser) (hb : extract b = none) :
    ∀ (bs : List TargetBrowser) (acc : BrowserSupport × List TargetBrowser),
      (bs.foldl (collectNativeStep extract) acc).1 b = acc.1 b := by
  intro bs
  induction bs with
  | nil => intro acc; rfl
  | cons b0 bs ih =>
    intro acc
    simp only [List.foldl_cons]
    rw [ih]
    unfold collectNativeStep
    cases hx : extract b0 with
    | none => rfl
    | some d =>
      simp only []
      unfold supportSet
      have hbb0 : b ≠ b0 := fun he => by rw [he, hx] at hb; cases hb
      simp [hbb0]

lemma collect_fold_fst_notmem
    (extract : TargetBrowser → Option BrowserSupportDetail) :
    ∀ (bs : List TargetBrowser) (acc : BrowserSupport × List TargetBrowser)
      (b : TargetBrowser), b ∉ bs →
      (bs.foldl (collectNativeStep extract) acc).1 b = acc.1 b := by
  intro bs
  induction bs with
  | nil => intro acc b _; rfl
  | cons b0 bs ih =>
    intro acc b h
    simp only [List.foldl_cons]
    rw [ih _ b (fun hc => h (List.mem_cons_of_mem _ hc))]
    unfold collectNativeStep
    cases hx : extract b0 with
    | none => rfl
    | some d =>
      simp only []
      unfold supportSet
      have hb : b ≠ b0 := fun he => h (he ▸ List.mem_cons_self _ _)
      simp [hb]

lemma collect_fold_fst_some
    (extract : TargetBrowser → Option BrowserSupportDetail)
    (b : TargetBrowser) (d : BrowserSupportDetail) (hb : extract b = some d) :
    ∀ (bs : List TargetBrowser) (acc : BrowserSupport × List TargetBrowser),
      b ∈ bs → (bs.foldl (collectNativeStep extract) acc).1 b = some d := by
  intro bs
  induction bs with
  | nil => intro acc h; cases h
  | cons b0 bs ih =>
    intro acc h
    by_cases hbs : b ∈ bs
    · exact ih _ hbs
    · have hbb0 : b = b0 := by
        rcases List.mem_cons.mp h with h1 | h1
        · exact h1
        · exact absurd h1 hbs
      subst hbb0
      simp only [List.foldl_cons]
      rw [collect_fold_fst_notmem extract bs _ b hbs]
      unfold collectNativeStep
      rw [hb]
      unfold supportSet
      simp

lemma collect_fold_snd
    (extract : TargetBrowser → Option BrowserSupportDetail) :
    ∀ (bs : List TargetBrowser) (acc : BrowserSupport × List TargetBrowser),
      (bs.foldl (collectNativeStep extract) acc).2 =
        acc.2 ++ bs.filter (fun b => (extract b).isSome) := by
  intro bs
  induction bs with
  | nil => intro acc; simp
  | cons b0 bs ih =>
    intro acc
    simp only [List.foldl_cons]
    rw [ih]
    unfold collectNativeStep
    cases hx : extract b0 with
    | none => simp [List.filter_cons, hx]
    | some d => simp [List.filter_cons, hx]

lemma collectNativeSupport_fst
    (extract : TargetBrowser → Option BrowserSupportDetail)
    (b : TargetBrowser) : (collectNativeSupport extract).1 b = extract b := by
  cases hx : extract b with
  | none =>
    unfold collectNativeSupport
    rw [collect_fold_fst_none extract b hx]
    rfl
  | some d =>
    unfold collectNativeSupport
    exact collect_fold_fst_some extract b d hx TARGET_BROWSERS _
      (mem_TARGET_BROWSERS b)

lemma collectNativeSupport_snd_mem
    (extract : TargetBrowser → Option BrowserSupportDetail)
    (b : TargetBrowser) :
    b ∈ (collectNativeSupport extract).2 ↔ (extract b).isSome = true := by
  unfold collectNativeSupport
  rw [collect_fold_snd]
  simp [List.mem_filter, mem_TARGET_BROWSERS b]

lemma contains_iff_mem (wd : List TargetBrowser) (b : TargetBrowser) :
    wd.contains b = true ↔ b ∈ wd := by
  simp [List.contains]

lemma inferStep_preserves_mem (wd : List TargetBrowser)
    (m : BrowserSupport) (b0 p : TargetBrowser)
    (hp : p ∈ wd) : (inferStep wd m b0) p = m p := by
  unfold inferStep
  by_cases hc : wd.contains b0 = true
  · rw [if_pos hc]
  · rw [if_neg hc]
    unfold supportSet
    have hpb0 : p ≠ b0 := fun he =>
      hc ((contains_iff_mem wd b0).mpr (he ▸ hp))
    simp [hpb0]

lemma infer_fold_mem_stable (wd : List TargetBrowser) :
    ∀ (bs : List TargetBrowser) (m : BrowserSupport) (p : TargetBrowser),
      p ∈ wd → (bs.foldl (inferStep wd) m) p = m p := by
  intro bs
  induction bs with
  | nil => intro m p _; rfl
  | cons b0 bs ih =>
    intro m p hp
    simp only [List.foldl_cons]
    rw [ih _ p hp]
    exact inferStep_preserves_mem wd m b0 p hp

lemma inferBrowserSupport_congr (b : TargetBrowser) (wd : List TargetBrowser)
    (m1 m2 : BrowserSupport)
    (h : ∀ p, p ∈ wd → m1 p = m2 p) :
    inferBrowserSupport b wd m1 = inferBrowserSupport b wd m2 := by
  unfold inferBrowserSupport
  cases inferenceMap b with
  | none => rfl
  | some rel =>
    dsimp only
    by_cases hc : wd.contains rel = true
    · rw [if_pos hc, if_pos hc, h rel ((contains_iff_mem wd rel).mp hc)]
    · rw [if_neg hc, if_neg hc]

lemma infer_fold_notmem (wd : List TargetBrowser) :
    ∀ (bs : List TargetBrowser) (m : BrowserSupport) (b : TargetBrowser),
      b ∉ bs → (bs.foldl (inferStep wd) m) b = m b := by
  intro bs
  induction bs with
  | nil => intro m b _; rfl
  | cons b0 bs ih =>
    intro m b h
    simp only [List.foldl_cons]
    rw [ih _ b (fun hc => h (List.mem_cons_of_mem _ hc))]
    unfold inferStep
    by_cases hc : wd.contains b0 = true
    · rw [if_pos hc]
    · rw [if_neg hc]
      unfold supportSet
      have hb : b ≠ b0 := fun he => h (he ▸ List.mem_cons_self _ _)
      simp [hb]

lemma infer_fold_mem (wd : List TargetBrowser) :
    ∀ (bs : List TargetBrowser) (m : BrowserSupport) (b : TargetBrowser),
      b ∉ wd → b ∈ bs →
      (bs.foldl (inferStep wd) m) b = some (inferBrowserSupport b wd m) := by
  intro bs
  induction bs with
  | nil => intro m b _ h; cases h
  | cons b0 bs ih =>
    intro m b hb hmem
    by_cases hbs : b ∈ bs
    · simp only [List.foldl_cons]
      rw [ih _ b hb hbs]
      congr 1
      apply inferBrowserSupport_congr
      intro p hp
      exact inferStep_preserves_mem wd m b0 p hp
    · have hbb0 : b = b0 := by
        rcases List.mem_cons.mp hmem with h1 | h1
        · exact h1
        · exact absurd h1 hbs
      subst hbb0
      simp only [List.foldl_cons]
      rw [infer_fold_notmem wd bs _ b hbs]
      unfold inferStep
      rw [if_neg (fun hcon => hb ((contains_iff_mem wd b).mp hcon))]
      unfold supportSet
      simp

lemma completeSupport_eval
    (extract : TargetBrowser → Option BrowserSupportDetail)
    (b : TargetBrowser) :
    completeSupport (collectNativeSupport extract) b =
      (match extract b with
       | some d => some d
       | none => some (inferBrowserSupport b (collectNativeSupport extract).2
           (collectNativeSupport extract).1)) := by
  cases hx : extract b with
  | some d =>
    have hc : b ∈ (collectNativeSupport extract).2 :=
      (collectNativeSupport_snd_mem extract b).mpr (by simp [hx])
    unfold completeSupport
    rw [infer_fold_mem_stable _ TARGET_BROWSERS _ b hc,
      collectNativeSupport_fst, hx]
  | none =>
    have hnc : b ∉ (collectNativeSupport extract).2 := by
      intro hcon
      have h2 := (collectNativeSupport_snd_mem extract b).mp hcon
      rw [hx] at h2
      cases h2
    unfold completeSupport
    exact infer_fold_mem _ TARGET_BROWSERS _ b hnc (mem_TARGET_BROWSERS b)

lemma completeSupport_isSome
    (extract : TargetBrowser → Option BrowserSupportDetail)
    (b : TargetBrowser) :
    (completeSupport (collectNativeSupport extract) b).isSome = true := by
  rw [completeSupport_eval]
  cases hx : extract b <;> simp

lemma completeSupport_none_char
    (extract : TargetBrowser → Option BrowserSupportDetail)
    (b : TargetBrowser) (hx : extract b = none) :
    completeSupport (collectNativeSupport extract) b =
      some { current := .n, versions := [] } ∨
    ∃ parent, inferenceMap b = some parent ∧
      completeSupport (collectNativeSupport extract) b =
        completeSupport (collectNativeSupport extract) parent ∧
      (extract parent).isSome = true := by
  rw [completeSupport_eval extract b, hx]
  simp only []
  unfold inferBrowserSupport
  cases him : inferenceMap b with
  | none => left; rfl
  | some parent =>
    dsimp only
    by_cases hc : (collectNativeSupport extract).2.contains parent = true
    · right
      have hps : (extract parent).isSome = true :=
        (collectNativeSupport_snd_mem extract parent).mp
          ((contains_iff_mem _ parent).mp hc)
      obtain ⟨d, hd⟩ := Option.isSome_iff_exists.mp hps
      refine ⟨parent, rfl, ?_, hps⟩
      rw [completeSupport_eval extract parent, hd]
      rw [if_pos hc]
      rw [collectNativeSupport_fst, hd]
    · left
      rw [if_neg hc]

/-- C9 (amended). Every feature produced by the three creation paths has an
entry in its support map for every target browser; in the secondary and
tertiary paths a browser with no native data receives either the mapped
parent browser's support (when the parent has native data) or an
explicit unsupported detail with an empty version list; in the primary
path a browser with no stats entry receives an explicit unknown detail
with an empty version list. -/
theorem support_keys_total_amended :
    (∀ (id : String) (feature : CaniuseFeature) (usage : AltWw)
      (b : TargetBrowser),
      ((processCaniuseFeature id feature usage).support b).isSome = true ∧
      (feature.stats b = none →
        (processCaniuseFeature id feature usage).support b =
          some { current := .u, versions := [] })) ∧
    (∀ (wfId : String) (wfFeature : WebFeature) (usage : AltWw)
      (b : TargetBrowser),
      ((createFeatureFromWebFeatures wfId wfFeature usage).support b).isSome
          = true ∧
      (extractWebFeaturesBrowserSupport wfFeature.status.support b = none →
        ((createFeatureFromWebFeatures wfId wfFeature usage).support b =
            some { current := .n, versions := [] } ∨
          ∃ parent, inferenceMap b = some parent ∧
            (createFeatureFromWebFeatures wfId wfFeature usage).support b =
              (createFeatureFromWebFeatures wfId wfFeature usage).support
                parent ∧
            (extractWebFeaturesBrowserSupport wfFeature.status.support
                parent).isSome = true))) ∧
    (∀ (path : String) (compat : MdnCompatStatement) (usage : AltWw)
      (inner : MdnCompatInner) (nf : NormalizedFeature),
      compat.__compat = some inner →
      createFeatureFromMdn path compat usage = some nf →
      ∀ b : TargetBrowser,
        (nf.support b).isSome = true ∧
        (mdnNativeExtract inner b = none →
          (nf.support b = some { current := .n, versions := [] } ∨
            ∃ parent, inferenceMap b = some parent ∧
              nf.support b = nf.support parent ∧
              (mdnNativeExtract inner parent).isSome = true))) := by
  refine ⟨?_, ?_, ?_⟩
  · intro id feature usage b
    have hdef : (processCaniuseFeature id feature usage).support =
        setAllSupport (extractCaniuseBrowserSupport feature.stats) := rfl
    constructor
    · rw [hdef, setAllSupport_eval]
      rfl
    · intro hstats
      rw [hdef, setAllSupport_eval]
      unfold extractCaniuseBrowserSupport
      rw [hstats]
  · intro wfId wfFeature usage b
    have hdef : (createFeatureFromWebFeatures wfId wfFeature usage).support =
        completeSupport (collectNativeSupport
          (extractWebFeaturesBrowserSupport wfFeature.status.support)) := rfl
    constructor
    · rw [hdef]
      exact completeSupport_isSome _ b
    · intro hx
      rw [hdef]
      exact completeSupport_none_char _ b hx
  · intro path compat usage inner nf hcompat hnf b
    have hsup : nf.support =
        completeSupport (collectNativeSupport (mdnNativeExtract inner)) := by
      unfold createFeatureFromMdn at hnf
      rw [hcompat] at hnf
      have h2 := Option.some.inj hnf
      rw [← h2]
    rw [hsup]
    exact ⟨completeSupport_isSome _ b,
      fun hx => completeSupport_none_char _ b hx⟩

/-- Witness for C9 (amended): in the secondary creation path, chrome (which
has no native data and no parent) gets the explicit unsupported detail. -/
theorem support_keys_total_amended_witness :
    (createFeatureFromWebFeatures "abc" exWfFeature exAltWw).support .chrome =
        some { current := .n, versions := [] } ∨
      ∃ parent, inferenceMap .chrome = some parent ∧
        (createFeatureFromWebFeatures "abc" exWfFeature exAltWw).support
            .chrome =
          (createFeatureFromWebFeatures "abc" exWfFeature exAltWw).support
            parent ∧
        (extractWebFeaturesBrowserSupport exWfFeature.status.support
            parent).isSome = true :=
  (support_keys_total_amended.2.1 "abc" exWfFeature exAltWw .chrome).2 rfl

/-- C9 counterexample: in the primary creation path, a browser with no
stats entry receives an explicit unknown detail, which is neither
parent-inferred support (chrome has no mapped parent) nor an explicit
unsupported detail, contradicting the claim as stated. -/
theorem processCaniuse_no_stats_unknown_not_unsupported :
    (processCaniuseFeature "x" exEmptyStatsFeature exAltWw).support .chrome =
      some { current := .u, versions := [] } ∧
    SupportStatus.u ≠ SupportStatus.n ∧
    inferenceMap .chrome = none := by
  refine ⟨?_, by decide, rfl⟩
  have hdef : (processCaniuseFeature "x" exEmptyStatsFeature exAltWw).support =
      setAllSupport (extractCaniuseBrowserSupport exEmptyStatsFeature.stats) :=
    rfl
  rw [hdef, setAllSupport_eval]
  rfl

-- ===========================================================================
-- Merger scenario theorems (grid vs css.properties.display.grid)
-- ===========================================================================

/-- C2 (amended). Processing the tertiary record at
css.properties.display.grid while the primary feature "grid" exists does
NOT link the two: prefix stripping only removes the css, wf and mdn
source tags, so the ids normalize to different strings, the name heuristic does not
match either, the primary record gains no provenance entry, and a new
record with id mdn-css.properties.display.grid IS created. -/
theorem mdn_grid_not_linked_amended :
    normalizeFeatureId "css.properties.display.grid" =
      "csspropertiesdisplaygrid" ∧
    normalizeFeatureId "grid" = "grid" ∧
    areLikelyDuplicates
      ("css.properties.display.grid", "display: Grid")
      ("grid", "CSS Grid Layout (level 1)") = false ∧
    (FeatMap.get gridFeaturesAfter "grid").map
      (fun f => f.sourceData.supplementary) = some [] ∧
    (FeatMap.get gridFeaturesAfter
      "mdn-css.properties.display.grid").isSome = true := by
  refine ⟨by decide, by decide, by decide, rfl, rfl⟩

/-- C2 counterexample: the ids of the tertiary path and the primary
feature do not normalize to the same string, and merging does create the
record mdn-css.properties.display.grid, contradicting the claim as
stated. -/
theorem mdn_grid_counterexample :
    normalizeFeatureId "css.properties.display.grid" ≠
      normalizeFeatureId "grid" ∧
    (FeatMap.get gridFeaturesAfter
      "mdn-css.properties.display.grid").isSome = true := by
  refine ⟨by decide, rfl⟩

/-- Witness for C4: a total-usage trigger at 80% fires on the reported
78 to 81.5 move. -/
theorem checkUsageThreshold_fires_iff_witness :
    checkUsageThreshold "total" 80 exFullFeature exChangeSet = true :=
  (checkUsageThreshold_fires_iff "total" 80 exFullFeature exChangeSet).mpr
    ⟨{ old := 78, new := 163/2, delta := 7/2 }, rfl, by
      norm_num [exFullFeature]
      intro h
      decide⟩
